import Mathlib

/-!
Verification of the crawl/resume traversal engine of `scripts/browse-crawl-v2.ts`
(with its v3 variant). The TypeScript source is shallowly embedded: the
stateful recursive `crawl` becomes a fuel-indexed state-passing function, the
browser/classifier/filesystem collaborators become an explicit environment of
result-valued functions, and thrown exceptions become `Except` results.
-/

namespace BrowseCrawl

/-- A thrown JavaScript error, reduced to its message text (the only part the
crawler ever inspects). -/
structure JsError where
  message : String
deriving DecidableEq, Repr

/-- `linkType ∈ {content, entry}`: the classifier's prediction for a link. -/
inductive LinkType where
  | content
  | entry
deriving DecidableEq, Repr

/-- One candidate outbound link, as produced by the classifier. -/
structure Link where
  url : String
  text : String
  linkType : LinkType
deriving DecidableEq, Repr

/-- Page classification labels; `contentAssumed` is the engine's sentinel. -/
inductive PageType where
  | content
  | entry
  | blocked
  | other
  | contentAssumed
deriving DecidableEq, Repr

/-- Reasons reported for a blocked page. -/
inductive BlockedReason where
  | auth
  | paywall
  | error
  | captcha
  | rateLimit
  | geoBlocked
  | unknown
deriving DecidableEq, Repr

/-- `CrawlPageData` (the zod `CrawlPageSchema` payload). -/
structure CrawlPageData where
  pageType : PageType
  blockedReason : Option BlockedReason
  nextLinks : List Link
deriving DecidableEq, Repr

/-- The durable record written for one visited page.  `metadata.viewport` is a
constant in the source and is dropped; `title` is kept. -/
structure PageSnapshot where
  url : String
  depth : Nat
  crawlData : CrawlPageData
  title : String
  content : Option String
deriving DecidableEq, Repr

/-- `CrawlConfig` from the source. -/
structure CrawlConfig where
  goal : String
  maxDepth : Nat
  sleepMs : Nat
deriving DecidableEq, Repr

/-- The `defaultConfig` constant of `browse-crawl-v2.ts`. -/
def defaultConfig : CrawlConfig :=
  { goal := "Collect materials for a daily market briefing. Look for Headlines, Trending News, and Market Recaps, but also prioritize stories on Corporate Earnings, Federal Reserve policy, and Global Macroeconomics."
    maxDepth := 1
    sleepMs := 2000 }

/-- `beginsWith pat l` is true when `pat` is an initial segment of `l`
(character-level model of the string comparisons the source performs). -/
def beginsWith : List Char → List Char → Bool
  | [], _ => true
  | _ :: _, [] => false
  | p :: ps, c :: cs => p == c && beginsWith ps cs

/-- `containsSeg hay pat`: `pat` occurs contiguously inside `hay`
(JavaScript `String.includes`). -/
def containsSeg : List Char → List Char → Bool
  | [], pat => pat.isEmpty
  | c :: rest, pat => beginsWith pat (c :: rest) || containsSeg rest pat

/-- JavaScript `s.includes(pat)`. -/
def strIncludes (s pat : String) : Bool :=
  containsSeg s.data pat.data

/-- JavaScript `s.startsWith(pat)`. -/
def strStarts (s pat : String) : Bool :=
  beginsWith pat.data s.data

/-- JavaScript `s.endsWith(pat)`. -/
def strEnds (s pat : String) : Bool :=
  beginsWith pat.data.reverse s.data.reverse

/-- `isCDPConnectionError` from `browse-crawl-v2.ts` (identical list in the v3
variant): the error message is matched against five fixed substrings. -/
def isCDPConnectionError (e : JsError) : Bool :=
  strIncludes e.message "CDP transport closed" ||
  strIncludes e.message "socket-close" ||
  strIncludes e.message "Session closed" ||
  strIncludes e.message "Target closed" ||
  strIncludes e.message "Connection closed"

/-- The five substrings the source actually matches, as a list. -/
def cdpFatalSubstrings : List String :=
  ["CDP transport closed", "socket-close", "Session closed", "Target closed",
    "Connection closed"]

/-- The fatal-error test as the specification words it (section 4.3): the
message is matched against the substrings "transport closed", "session
closed", "target closed", "connection closed", "socket closed".  This
definition follows the claim text and is compared against
`isCDPConnectionError`, the definition taken from the source. -/
def isFatalClaimed (e : JsError) : Bool :=
  strIncludes e.message "transport closed" ||
  strIncludes e.message "session closed" ||
  strIncludes e.message "target closed" ||
  strIncludes e.message "connection closed" ||
  strIncludes e.message "socket closed"

/-- The page-level collaborators of the engine: navigation, the external
classifier (`stagehand.extract`), `page.title`, and the three artifact
captures of `extractPage`.  Each is a deterministic result-valued function of
the inputs the source passes it; a `some`/`Except.error` result models the
underlying call throwing. -/
structure PageOps where
  goto : String → Option JsError
  extract : String → Nat → Except JsError CrawlPageData
  title : String → String
  captureText : String → Except JsError String
  captureA11y : String → Except JsError Unit
  captureHtml : String → Except JsError String

/-- Environment of a crawl run: the page-level collaborators, plus the outcome
of `withTimeout(page.close(), 5000)` for each page id (`false` models the
close failing or timing out). -/
structure CrawlEnv where
  ops : PageOps
  closeOk : Nat → Bool

/-- The mutable state threaded through the traversal, together with the
observable event log: persisted snapshots (with their index), classifier
invocations, page opens and close attempts, close warnings, and the artifact
files written. -/
structure CrawlState where
  pageIndex : Nat
  visitedUrls : List String
  snapshots : List (Nat × PageSnapshot)
  classifierCalls : List (String × Nat)
  nextPageId : Nat
  openedPages : List Nat
  closeAttempts : List Nat
  closeWarnings : List Nat
  a11yFiles : List Nat
  htmlFiles : List Nat
deriving DecidableEq, Repr

/-- The state of a fresh crawl: `pageIndex = { current: 0 }`,
`visitedUrls = new Set()`, nothing persisted yet. -/
def initState : CrawlState :=
  ⟨0, [], [], [], 0, [], [], [], [], []⟩

/-- `visitedUrls.add(url)`. -/
def addVisited (url : String) (st : CrawlState) : CrawlState :=
  { st with visitedUrls := st.visitedUrls ++ [url] }

/-- `stagehand.context.newPage()`: allocates the next page id. -/
def openPage (st : CrawlState) : CrawlState :=
  { st with nextPageId := st.nextPageId + 1
            openedPages := st.openedPages ++ [st.nextPageId] }

/-- `withTimeout(page.close(), 5000)` wrapped in `try/catch`: the attempt is
always recorded; a failure or timeout is recorded as a warning and swallowed. -/
def attemptClose (env : CrawlEnv) (pid : Nat) (st : CrawlState) : CrawlState :=
  if env.closeOk pid then
    { st with closeAttempts := st.closeAttempts ++ [pid] }
  else
    { st with closeAttempts := st.closeAttempts ++ [pid]
              closeWarnings := st.closeWarnings ++ [pid] }

/-- The `finally` block of `crawl`: close the current page only if this call
created it. -/
def finishPage (env : CrawlEnv) (owned : Bool) (pid : Nat) (st : CrawlState) :
    CrawlState :=
  if owned then attemptClose env pid st else st

/-- `savePageSnapshot(outputDir, pageIndex.current++, snapshot)`: persist under
the current index, then increment. -/
def persistSnapshot (snap : PageSnapshot) (st : CrawlState) : CrawlState :=
  { st with snapshots := st.snapshots ++ [(st.pageIndex, snap)]
            pageIndex := st.pageIndex + 1 }

/-- `recordClassifierCall`: the `stagehand.extract` invocation log entry. -/
def recordClassifierCall (url : String) (depth : Nat) (st : CrawlState) :
    CrawlState :=
  { st with classifierCalls := st.classifierCalls ++ [(url, depth)] }

/-- The sentinel classification `{ pageType: "content-assumed", nextLinks: [] }`
that the engine synthesizes when it skips the classifier. -/
def assumedContent : CrawlPageData :=
  ⟨PageType.contentAssumed, none, []⟩

/-- The artifact-capture block of `extractPage` in `browse-crawl-v2.ts`: body
text, then accessibility tree (saved at once), then HTML (saved at once), the
whole block under one `try/catch`.  A failure after the body text was assigned
leaves the already-captured text as the content. -/
def capturePageArtifacts (ops : PageOps) (url : String) (idx : Nat)
    (st : CrawlState) : CrawlState × Option String :=
  match ops.captureText url with
  | Except.error _ => (st, none)
  | Except.ok text =>
    match ops.captureA11y url with
    | Except.error _ => (st, some text)
    | Except.ok _ =>
      let stA := { st with a11yFiles := st.a11yFiles ++ [idx] }
      match ops.captureHtml url with
      | Except.error _ => (stA, some text)
      | Except.ok _ => ({ stA with htmlFiles := stA.htmlFiles ++ [idx] }, some text)

/-- The tail of `extractPage` once the classification is fixed: fetch the
title, capture artifacts, assemble the snapshot. -/
def finishSnapshot (ops : PageOps) (url : String) (depth : Nat) (idx : Nat)
    (d : CrawlPageData) (st : CrawlState) : CrawlState × Except JsError PageSnapshot :=
  match capturePageArtifacts ops url idx st with
  | (st1, content) => (st1, Except.ok ⟨url, depth, d, ops.title url, content⟩)

/-- `extractPage` from `browse-crawl-v2.ts`: navigate; skip the classifier at
max depth or on a content hint (synthesizing `assumedContent`); otherwise call
it, propagating its failure; then capture artifacts and build the snapshot. -/
def extractPage (ops : PageOps) (cfg : CrawlConfig) (url : String) (depth : Nat)
    (idx : Nat) (hint : Option LinkType) (st : CrawlState) :
    CrawlState × Except JsError PageSnapshot :=
  match ops.goto url with
  | some e => (st, Except.error e)
  | none =>
    if cfg.maxDepth ≤ depth then
      finishSnapshot ops url depth idx assumedContent st
    else if hint = some LinkType.content then
      finishSnapshot ops url depth idx assumedContent st
    else
      match ops.extract url depth with
      | Except.error e => (recordClassifierCall url depth st, Except.error e)
      | Except.ok d => finishSnapshot ops url depth idx d (recordClassifierCall url depth st)

/-- The child-link loop body and `crawl` itself, from `browse-crawl-v2.ts`.

`crawlLinks recur env links st` is the `for (const link of nextLinks)` loop:
sleep (a pure delay, no state effect), open a child page, recurse via `recur`
(the recursion is passed in explicitly), close the child in the `finally`, and
on an error from the recursion rethrow when `isCDPConnectionError` holds,
otherwise log and continue with the next sibling. -/
def crawlLinks
    (recur : String → Option Nat → Option LinkType → CrawlState →
      CrawlState × Except JsError Unit)
    (env : CrawlEnv) : List Link → CrawlState → CrawlState × Except JsError Unit
  | [], st => (st, Except.ok ())
  | l :: rest, st =>
    match recur l.url (some st.nextPageId) (some l.linkType) (openPage st) with
    | (st1, Except.ok _) =>
      crawlLinks recur env rest (attemptClose env st.nextPageId st1)
    | (st1, Except.error e) =>
      if isCDPConnectionError e then
        (attemptClose env st.nextPageId st1, Except.error e)
      else
        crawlLinks recur env rest (attemptClose env st.nextPageId st1)

/-- Placeholder error for fuel exhaustion; every theorem supplies enough fuel
that this value is never produced. -/
def fuelOut : JsError := ⟨"fuel exhausted"⟩

/-- `const page = parentPage || await stagehand.context.newPage()`: reuse the
caller's page when supplied, otherwise allocate a fresh one. -/
def acquire (parentPage : Option Nat) (st : CrawlState) : CrawlState :=
  match parentPage with
  | some _ => st
  | none => openPage st

/-- The id of the page the invocation works on. -/
def acquiredId (parentPage : Option Nat) (st : CrawlState) : Nat :=
  match parentPage with
  | some p => p
  | none => st.nextPageId

/-- The `try { … } finally { … }` part of one `crawl` invocation, after the
visited check and the page acquisition: `extractPage`; persist then increment
the index; stop at max depth; otherwise run the link loop; in the `finally`,
close the page only when `owned`. -/
def crawlVisit
    (recur : String → Option Nat → Option LinkType → CrawlState →
      CrawlState × Except JsError Unit)
    (env : CrawlEnv) (cfg : CrawlConfig) (url : String) (depth : Nat)
    (pid : Nat) (owned : Bool) (hint : Option LinkType) (st2 : CrawlState) :
    CrawlState × Except JsError Unit :=
  match extractPage env.ops cfg url depth st2.pageIndex hint st2 with
  | (st3, Except.error e) => (finishPage env owned pid st3, Except.error e)
  | (st3, Except.ok snap) =>
    if cfg.maxDepth ≤ depth then
      (finishPage env owned pid (persistSnapshot snap st3), Except.ok ())
    else
      match crawlLinks recur env snap.crawlData.nextLinks (persistSnapshot snap st3) with
      | (st5, res) => (finishPage env owned pid st5, res)

/-- The body of one `crawl` invocation, with the recursion passed in
explicitly as `recur` (already fixed at depth `depth + 1`): check the visited
set and return as a no-op on a hit, otherwise insert the url, acquire the
page, and run the visit. -/
def crawlStep
    (recur : String → Option Nat → Option LinkType → CrawlState →
      CrawlState × Except JsError Unit)
    (env : CrawlEnv) (cfg : CrawlConfig) (url : String) (depth : Nat)
    (parentPage : Option Nat) (hint : Option LinkType) (st : CrawlState) :
    CrawlState × Except JsError Unit :=
  if st.visitedUrls.contains url then (st, Except.ok ())
  else
    crawlVisit recur env cfg url depth
      (acquiredId parentPage (addVisited url st)) parentPage.isNone hint
      (acquire parentPage (addVisited url st))

/-- `crawl` from `browse-crawl-v2.ts`, fuel-indexed (one unit of fuel per
recursion level; `cfg.maxDepth - depth + 1` always suffices). -/
def crawl (env : CrawlEnv) (cfg : CrawlConfig) :
    Nat → String → Nat → Option Nat → Option LinkType → CrawlState →
      CrawlState × Except JsError Unit
  | 0, _, _, _, _, st => (st, Except.error fuelOut)
  | fuel + 1, url, depth, parentPage, hint, st =>
    crawlStep (fun u pp h s => crawl env cfg fuel u (depth + 1) pp h s)
      env cfg url depth parentPage hint st

/-- The recursion actually passed to the link loop by `crawl` at a given depth. -/
def childRecur (env : CrawlEnv) (cfg : CrawlConfig) (fuel depth : Nat) :
    String → Option Nat → Option LinkType → CrawlState →
      CrawlState × Except JsError Unit :=
  fun u pp h s => crawl env cfg fuel u (depth + 1) pp h s

/-- The resume loop of `main` in `browse-crawl-v2.ts`: each remaining
first-level link is re-entered at depth 1 under `defaultConfig`, with the same
open/recurse/close and fatal-vs-recoverable handling as the child-link loop. -/
def resumeCrawlLoop (env : CrawlEnv) (fuel : Nat) (links : List Link)
    (st : CrawlState) : CrawlState × Except JsError Unit :=
  crawlLinks (fun u pp h s => crawl env defaultConfig fuel u 1 pp h s) env links st

/-- One file of the `pages/` directory, as `getResumeState` sees it: its name
and the result of `JSON.parse(fs.readFileSync(...))` (an `Except.error` models
a missing, unreadable or malformed file: the read or parse throwing). -/
structure FsFile where
  name : String
  parse : Except JsError PageSnapshot
deriving Repr

/-- The resume state `{ remainingLinks, visitedUrls, nextPageIndex }`. -/
structure ResumeState where
  remainingLinks : List Link
  visitedUrls : List String
  nextPageIndex : Nat
deriving DecidableEq, Repr

/-- The crawl-file name test used by `getResumeState`. -/
def isCrawlFile (f : FsFile) : Bool :=
  strEnds f.name "_crawl.json"

/-- The root (page index 0) crawl-file name test used by `getResumeState`. -/
def isPage0File (f : FsFile) : Bool :=
  strStarts f.name "page-0-" && strEnds f.name "_crawl.json"

/-- The read loop over all crawl files: any parse throwing aborts the whole
read (the exception propagates to the surrounding `try`). -/
def readSnapshots : List FsFile → Except JsError (List PageSnapshot)
  | [] => Except.ok []
  | f :: rest =>
    match f.parse with
    | Except.error e => Except.error e
    | Except.ok s =>
      match readSnapshots rest with
      | Except.error e => Except.error e
      | Except.ok ss => Except.ok (s :: ss)

/-- `new Set()` collecting `data.url` over the parsed snapshots: insertion
order, first occurrence kept. -/
def collectUrls : List PageSnapshot → List String → List String
  | [], acc => acc
  | s :: rest, acc =>
    if acc.contains s.url then collectUrls rest acc
    else collectUrls rest (acc ++ [s.url])

/-- `getResumeState` from `browse-crawl-v2.ts`.  The argument is the
`pages/` directory: `none` when `fs.existsSync` is false, otherwise the
directory listing in `readdirSync` order.  Any exception inside the body
(modelled by the parse results) is caught and yields `none`. -/
def getResumeState (pagesDir : Option (List FsFile)) : Option ResumeState :=
  match pagesDir with
  | none => none
  | some files =>
    match files.filter isPage0File with
    | [] => none
    | p0 :: _ =>
      match p0.parse with
      | Except.error _ => none
      | Except.ok page0Data =>
        let crawlFiles := files.filter isCrawlFile
        match readSnapshots crawlFiles with
        | Except.error _ => none
        | Except.ok snaps =>
          let visitedUrls := collectUrls snaps []
          some
            { remainingLinks :=
                page0Data.crawlData.nextLinks.filter
                  (fun l => !visitedUrls.contains l.url)
              visitedUrls := visitedUrls
              nextPageIndex := crawlFiles.length }

/-- `Extends l l'`: the log `l'` is `l` with entries appended (append-only
evolution of a log or of the visited set). -/
def Extends {α : Type} (l l' : List α) : Prop :=
  ∃ ext, l' = l ++ ext

/-- At-most-once visitation invariant: every persisted snapshot's URL is in
the visited set, and no URL appears in two persisted snapshots. -/
def SnapInv (st : CrawlState) : Prop :=
  (∀ pr ∈ st.snapshots, pr.2.url ∈ st.visitedUrls) ∧
  (st.snapshots.map (fun pr => pr.2.url)).Nodup

/-- Depth bound invariant: every persisted snapshot respects `maxDepth`. -/
def DepthInv (cfg : CrawlConfig) (st : CrawlState) : Prop :=
  ∀ pr ∈ st.snapshots, pr.2.depth ≤ cfg.maxDepth

/-- Index invariant: the persisted snapshot indices are exactly
`0, 1, …, pageIndex - 1` in order. -/
def IndexInv (st : CrawlState) : Prop :=
  st.snapshots.map Prod.fst = List.range st.pageIndex

/-- Skip-classification invariant: every persisted snapshot at depth
`≥ maxDepth` carries the synthesized `content-assumed` classification. -/
def ContentInv (cfg : CrawlConfig) (st : CrawlState) : Prop :=
  ∀ pr ∈ st.snapshots, cfg.maxDepth ≤ pr.2.depth → pr.2.crawlData = assumedContent

/-- Monotone evolution of a crawl state: the visited set, the snapshot log and
the close-attempt log only grow, and page ids only move forward. -/
def StepLe (st st' : CrawlState) : Prop :=
  Extends st.visitedUrls st'.visitedUrls ∧
  Extends st.snapshots st'.snapshots ∧
  Extends st.closeAttempts st'.closeAttempts ∧
  st.nextPageId ≤ st'.nextPageId

/-- All close attempts added between `st` and `st'` are on pages allocated at
or after `st.nextPageId`. -/
def NewCloses (st st' : CrawlState) : Prop :=
  ∀ q ∈ st'.closeAttempts, q ∈ st.closeAttempts ∨ st.nextPageId ≤ q

/-- `ExtractOnly st st'`: the step from `st` to `st'` touched only the
classifier-call log and the artifact-file logs (what `extractPage` may do). -/
def ExtractOnly (st st' : CrawlState) : Prop :=
  st'.pageIndex = st.pageIndex ∧ st'.visitedUrls = st.visitedUrls ∧
  st'.snapshots = st.snapshots ∧ st'.nextPageId = st.nextPageId ∧
  st'.openedPages = st.openedPages ∧ st'.closeAttempts = st.closeAttempts ∧
  st'.closeWarnings = st.closeWarnings

/-- Two states agreeing on every component except the close-warning log. -/
def SameCore (s t : CrawlState) : Prop :=
  s.pageIndex = t.pageIndex ∧ s.visitedUrls = t.visitedUrls ∧
  s.snapshots = t.snapshots ∧ s.classifierCalls = t.classifierCalls ∧
  s.nextPageId = t.nextPageId ∧ s.openedPages = t.openedPages ∧
  s.closeAttempts = t.closeAttempts ∧ s.a11yFiles = t.a11yFiles ∧
  s.htmlFiles = t.htmlFiles

/-! Concrete sample data used by witnesses and counterexamples. -/

/-- A benign recoverable error (a per-page navigation timeout). -/
def softErr : JsError := ⟨"Navigation timed out after 60000ms"⟩

/-- A fatal transport error. -/
def fatalErr : JsError := ⟨"CDP transport closed"⟩

/-- Sample links discovered on the sample root page. -/
def sampleLinkA : Link := ⟨"https://s/a", "A", LinkType.entry⟩

/-- Second sample link (predicted content page). -/
def sampleLinkB : Link := ⟨"https://s/b", "B", LinkType.content⟩

/-- Third sample link. -/
def sampleLinkC : Link := ⟨"https://s/c", "C", LinkType.entry⟩

/-- A fully successful page-collaborator environment: navigation always
succeeds, the classifier labels the root an entry page with three links and
every other page a content page with none, all captures succeed. -/
def okOps : PageOps :=
  { goto := fun _ => none
    extract := fun u _ =>
      if u == "https://s/root" then
        Except.ok ⟨PageType.entry, none, [sampleLinkA, sampleLinkB, sampleLinkC]⟩
      else Except.ok ⟨PageType.content, none, []⟩
    title := fun _ => "t"
    captureText := fun _ => Except.ok "text"
    captureA11y := fun _ => Except.ok ()
    captureHtml := fun _ => Except.ok "<h>" }

/-- The successful environment with all closes succeeding. -/
def okEnv : CrawlEnv := ⟨okOps, fun _ => true⟩

/-- Collaborators for the error-injection scenarios: navigating to
`https://s/fatal` raises the fatal transport error, navigating to
`https://s/soft` raises a recoverable error, everything else succeeds. -/
def errOps : PageOps :=
  { okOps with
    goto := fun u =>
      if u == "https://s/fatal" then some fatalErr
      else if u == "https://s/soft" then some softErr
      else none }

/-- The error-injection environment. -/
def errEnv : CrawlEnv := ⟨errOps, fun _ => true⟩

/-- Collaborators for the artifact-capture counterexample: the body text is
captured but the accessibility-tree capture fails. -/
def a11yFailOps : PageOps :=
  { okOps with
    captureText := fun _ => Except.ok "BODY"
    captureA11y := fun _ => Except.error ⟨"getAccessibilityTree failed"⟩ }

/-- The artifact-failure environment. -/
def a11yFailEnv : CrawlEnv := ⟨a11yFailOps, fun _ => true⟩

/-- A small crawl configuration for witnesses: depth budget 1. -/
def wCfg : CrawlConfig := ⟨"goal", 1, 0⟩

/-- Root links of the sample resume directory. -/
def rootLinks : List Link := [sampleLinkA, sampleLinkB, sampleLinkC]

/-- Root snapshot of the sample resume directory. -/
def wRootSnap : PageSnapshot :=
  ⟨"https://s/root", 0, ⟨PageType.entry, none, rootLinks⟩, "root", none⟩

/-- First-child snapshot of the sample resume directory. -/
def wChildSnap : PageSnapshot :=
  ⟨"https://s/a", 1, assumedContent, "A", some "text"⟩

/-- A sample well-formed `pages/` directory: root plus one visited child. -/
def wFiles : List FsFile :=
  [⟨"page-0-s_crawl.json", Except.ok wRootSnap⟩,
    ⟨"page-1-s_crawl.json", Except.ok wChildSnap⟩]

/-- The sample directory with one malformed snapshot appended. -/
def wBadFiles : List FsFile :=
  wFiles ++ [⟨"page-2-s_crawl.json", Except.error ⟨"Unexpected end of JSON input"⟩⟩]

/-! ### Generic lemmas about append-only evolution -/

theorem extends_refl {α : Type} (l : List α) : Extends l l :=
  ⟨[], by simp⟩

theorem extends_trans {α : Type} {a b c : List α} (h1 : Extends a b)
    (h2 : Extends b c) : Extends a c := by
  obtain ⟨x, rfl⟩ := h1
  obtain ⟨y, rfl⟩ := h2
  exact ⟨x ++ y, by simp⟩

theorem extends_append {α : Type} (l ext : List α) : Extends l (l ++ ext) :=
  ⟨ext, rfl⟩

theorem extends_mem {α : Type} {a b : List α} (h : Extends a b) {x : α}
    (hx : x ∈ a) : x ∈ b := by
  obtain ⟨e, rfl⟩ := h
  exact List.mem_append_left _ hx

/-! ### Claim C5: the fatal-error classifier -/

/-- C5 (as stated) is false: the source matches the exact, case-sensitive
substrings `"CDP transport closed"` and `"socket-close"`, not the spec's
`"transport closed"`/`"socket closed"`.  The message `"socket closed"` is
fatal per the claim's substring list but `isCDPConnectionError` rejects it,
and `"socket-close"` is accepted by the code but matches none of the claim's
substrings. -/
theorem claim5_counterexample :
    isFatalClaimed ⟨"socket closed"⟩ = true ∧
    isCDPConnectionError ⟨"socket closed"⟩ = false ∧
    isCDPConnectionError ⟨"socket-close"⟩ = true ∧
    isFatalClaimed ⟨"socket-close"⟩ = false := by
  decide

/-- C5 (amended): `isCDPConnectionError` returns true exactly when the error's
message contains one of the five exact, case-sensitive substrings
"CDP transport closed", "socket-close", "Session closed", "Target closed",
"Connection closed", and false for every other error. -/
theorem claim5_theorem (e : JsError) :
    isCDPConnectionError e = true ↔
      ∃ p ∈ cdpFatalSubstrings, strIncludes e.message p = true := by
  simp only [isCDPConnectionError, cdpFatalSubstrings, Bool.or_eq_true,
    List.mem_cons, List.not_mem_nil, or_false, exists_eq_or_imp,
    exists_eq_left]
  tauto

/-! ### Lemmas about `extractPage` -/

theorem capture_extractOnly (ops : PageOps) (url : String) (idx : Nat)
    (st : CrawlState) :
    ExtractOnly st (capturePageArtifacts ops url idx st).1 ∧
    (capturePageArtifacts ops url idx st).1.classifierCalls = st.classifierCalls := by
  unfold capturePageArtifacts
  cases ops.captureText url <;> cases ops.captureA11y url <;>
    cases ops.captureHtml url <;> simp [ExtractOnly]

theorem capture_snd (ops : PageOps) (url : String) (idx : Nat) (st : CrawlState) :
    (capturePageArtifacts ops url idx st).2 = (ops.captureText url).toOption := by
  unfold capturePageArtifacts
  cases ops.captureText url <;> cases ops.captureA11y url <;>
    cases ops.captureHtml url <;> simp [Except.toOption]

theorem finishSnapshot_fst (ops : PageOps) (url : String) (depth idx : Nat)
    (d : CrawlPageData) (st : CrawlState) :
    (finishSnapshot ops url depth idx d st).1 = (capturePageArtifacts ops url idx st).1 :=
  rfl

theorem finishSnapshot_snd (ops : PageOps) (url : String) (depth idx : Nat)
    (d : CrawlPageData) (st : CrawlState) :
    (finishSnapshot ops url depth idx d st).2 =
      Except.ok ⟨url, depth, d, ops.title url, (ops.captureText url).toOption⟩ := by
  unfold finishSnapshot
  rw [← capture_snd ops url idx st]

theorem extractOnly_of_record (url : String) (depth : Nat) (st : CrawlState) :
    ExtractOnly st (recordClassifierCall url depth st) := by
  simp [ExtractOnly, recordClassifierCall]

theorem extractOnly_trans {a b c : CrawlState} (h1 : ExtractOnly a b)
    (h2 : ExtractOnly b c) : ExtractOnly a c := by
  obtain ⟨x1, x2, x3, x4, x5, x6, x7⟩ := h1
  obtain ⟨y1, y2, y3, y4, y5, y6, y7⟩ := h2
  exact ⟨y1.trans x1, y2.trans x2, y3.trans x3, y4.trans x4, y5.trans x5,
    y6.trans x6, y7.trans x7⟩

/-- Exhaustive description of the four paths through `extractPage`:
navigation failure; classifier skipped (depth or hint); classifier called and
failing; classifier called and succeeding. -/
theorem extractPage_cases (ops : PageOps) (cfg : CrawlConfig) (url : String)
    (depth idx : Nat) (hint : Option LinkType) (st : CrawlState) :
    (∃ e, ops.goto url = some e ∧
      extractPage ops cfg url depth idx hint st = (st, Except.error e)) ∨
    (ops.goto url = none ∧
      (cfg.maxDepth ≤ depth ∨ (¬cfg.maxDepth ≤ depth ∧ hint = some LinkType.content)) ∧
      extractPage ops cfg url depth idx hint st =
        finishSnapshot ops url depth idx assumedContent st) ∨
    (ops.goto url = none ∧ ¬cfg.maxDepth ≤ depth ∧ hint ≠ some LinkType.content ∧
      ((∃ e, ops.extract url depth = Except.error e ∧
          extractPage ops cfg url depth idx hint st =
            (recordClassifierCall url depth st, Except.error e)) ∨
        (∃ d, ops.extract url depth = Except.ok d ∧
          extractPage ops cfg url depth idx hint st =
            finishSnapshot ops url depth idx d (recordClassifierCall url depth st)))) := by
  unfold extractPage
  cases hg : ops.goto url
  case some e => exact Or.inl ⟨e, rfl, rfl⟩
  case none =>
    by_cases hd : cfg.maxDepth ≤ depth
    · exact Or.inr (Or.inl ⟨rfl, Or.inl hd, by simp [hd]⟩)
    · by_cases hh : hint = some LinkType.content
      · exact Or.inr (Or.inl ⟨rfl, Or.inr ⟨hd, hh⟩, by simp [hd, hh]⟩)
      · cases he : ops.extract url depth with
        | error e =>
          exact Or.inr (Or.inr ⟨rfl, hd, hh, Or.inl ⟨e, rfl, by simp [hd, hh, he]⟩⟩)
        | ok d =>
          exact Or.inr (Or.inr ⟨rfl, hd, hh, Or.inr ⟨d, rfl, by simp [hd, hh, he]⟩⟩)

theorem extractPage_extractOnly (ops : PageOps) (cfg : CrawlConfig)
    (url : String) (depth idx : Nat) (hint : Option LinkType) (st : CrawlState) :
    ExtractOnly st (extractPage ops cfg url depth idx hint st).1 := by
  rcases extractPage_cases ops cfg url depth idx hint st with
    ⟨e, _, heq⟩ | ⟨_, _, heq⟩ | ⟨_, _, _, ⟨e, _, heq⟩ | ⟨d, _, heq⟩⟩ <;> rw [heq]
  · exact ⟨rfl, rfl, rfl, rfl, rfl, rfl, rfl⟩
  · rw [finishSnapshot_fst]
    exact (capture_extractOnly ops url idx st).1
  · exact extractOnly_of_record url depth st
  · rw [finishSnapshot_fst]
    exact extractOnly_trans (extractOnly_of_record url depth st)
      (capture_extractOnly ops url idx (recordClassifierCall url depth st)).1

/-- The classifier-invocation log after `extractPage`, when navigation
succeeds: extended by exactly one entry when `depth < maxDepth` and the hint
is not `content`, unchanged otherwise. -/
theorem extractPage_classifier (ops : PageOps) (cfg : CrawlConfig)
    (url : String) (depth idx : Nat) (hint : Option LinkType) (st : CrawlState)
    (hgoto : ops.goto url = none) :
    (extractPage ops cfg url depth idx hint st).1.classifierCalls =
      st.classifierCalls ++
        (if depth < cfg.maxDepth ∧ hint ≠ some LinkType.content
          then [(url, depth)] else []) := by
  rcases extractPage_cases ops cfg url depth idx hint st with
    ⟨e, hg, _⟩ | ⟨_, hcond, heq⟩ | ⟨_, hd, hh, ⟨e, _, heq⟩ | ⟨d, _, heq⟩⟩
  · rw [hgoto] at hg; cases hg
  · rw [heq, finishSnapshot_fst, (capture_extractOnly ops url idx st).2]
    rcases hcond with hd | ⟨hd, hh⟩
    · rw [if_neg (by simp [Nat.not_lt_of_le hd]), List.append_nil]
    · rw [if_neg (by simp [hh]), List.append_nil]
  · rw [heq]
    rw [if_pos ⟨Nat.lt_of_not_le hd, hh⟩]
    rfl
  · rw [heq, finishSnapshot_fst,
      (capture_extractOnly ops url idx (recordClassifierCall url depth st)).2]
    rw [if_pos ⟨Nat.lt_of_not_le hd, hh⟩]
    rfl

/-- When `extractPage` skips the classifier (max depth or a content hint) it
returns the synthesized snapshot: `content-assumed`, no block reason, no next
links, the captured text as content. -/
theorem extractPage_skip (ops : PageOps) (cfg : CrawlConfig) (url : String)
    (depth idx : Nat) (hint : Option LinkType) (st : CrawlState)
    (hgoto : ops.goto url = none)
    (hskip : cfg.maxDepth ≤ depth ∨ hint = some LinkType.content) :
    (extractPage ops cfg url depth idx hint st).2 =
      Except.ok ⟨url, depth, assumedContent, ops.title url,
        (ops.captureText url).toOption⟩ := by
  rcases extractPage_cases ops cfg url depth idx hint st with
    ⟨e, hg, _⟩ | ⟨_, _, heq⟩ | ⟨_, hd, hh, _⟩
  · rw [hgoto] at hg; cases hg
  · rw [heq, finishSnapshot_snd]
  · rcases hskip with h | h
    · exact absurd h hd
    · exact absurd h hh

/-- Shape of any snapshot produced by `extractPage`: its url, depth and
content are determined by the call's inputs, and at max depth the
classification is the synthesized one. -/
theorem extractPage_ok_shape (ops : PageOps) (cfg : CrawlConfig) (url : String)
    (depth idx : Nat) (hint : Option LinkType) (st : CrawlState)
    (snap : PageSnapshot)
    (h : (extractPage ops cfg url depth idx hint st).2 = Except.ok snap) :
    snap.url = url ∧ snap.depth = depth ∧
    snap.content = (ops.captureText url).toOption ∧
    (cfg.maxDepth ≤ depth → snap.crawlData = assumedContent) := by
  rcases extractPage_cases ops cfg url depth idx hint st with
    ⟨e, _, heq⟩ | ⟨_, _, heq⟩ | ⟨_, hd, _, ⟨e, _, heq⟩ | ⟨d, _, heq⟩⟩
  · rw [heq] at h; cases h
  · rw [heq, finishSnapshot_snd] at h
    cases h
    exact ⟨rfl, rfl, rfl, fun _ => rfl⟩
  · rw [heq] at h; cases h
  · rw [heq, finishSnapshot_snd] at h
    cases h
    exact ⟨rfl, rfl, rfl, fun hle => absurd hle hd⟩

/-- When the classifier is called and succeeds, `extractPage` wraps its result
unchanged in the snapshot. -/
theorem extractPage_called (ops : PageOps) (cfg : CrawlConfig) (url : String)
    (depth idx : Nat) (hint : Option LinkType) (st : CrawlState)
    (d : CrawlPageData) (hgoto : ops.goto url = none)
    (hd : ¬cfg.maxDepth ≤ depth) (hh : hint ≠ some LinkType.content)
    (he : ops.extract url depth = Except.ok d) :
    (extractPage ops cfg url depth idx hint st).2 =
      Except.ok ⟨url, depth, d, ops.title url, (ops.captureText url).toOption⟩ := by
  rcases extractPage_cases ops cfg url depth idx hint st with
    ⟨e, hg, _⟩ | ⟨_, hcond, _⟩ | ⟨_, _, _, ⟨e, he2, _⟩ | ⟨d2, he2, heq⟩⟩
  · rw [hgoto] at hg; cases hg
  · rcases hcond with h | ⟨_, h⟩
    · exact absurd h hd
    · exact absurd h hh
  · rw [he] at he2; cases he2
  · rw [he] at he2
    cases he2
    rw [heq, finishSnapshot_snd]

/-! ### Monotone evolution of the crawl state -/

theorem stepLe_refl (st : CrawlState) : StepLe st st :=
  ⟨extends_refl _, extends_refl _, extends_refl _, Nat.le_refl _⟩

theorem stepLe_trans {a b c : CrawlState} (h1 : StepLe a b) (h2 : StepLe b c) :
    StepLe a c :=
  ⟨extends_trans h1.1 h2.1, extends_trans h1.2.1 h2.2.1,
    extends_trans h1.2.2.1 h2.2.2.1, Nat.le_trans h1.2.2.2 h2.2.2.2⟩

theorem stepLe_addVisited (url : String) (st : CrawlState) :
    StepLe st (addVisited url st) :=
  ⟨extends_append _ _, extends_refl _, extends_refl _, Nat.le_refl _⟩

theorem stepLe_openPage (st : CrawlState) : StepLe st (openPage st) :=
  ⟨extends_refl _, extends_refl _, extends_refl _, Nat.le_succ _⟩

theorem stepLe_attemptClose (env : CrawlEnv) (pid : Nat) (st : CrawlState) :
    StepLe st (attemptClose env pid st) := by
  unfold attemptClose
  split
  · exact ⟨extends_refl _, extends_refl _, extends_append _ _, Nat.le_refl _⟩
  · exact ⟨extends_refl _, extends_refl _, extends_append _ _, Nat.le_refl _⟩

theorem stepLe_finishPage (env : CrawlEnv) (owned : Bool) (pid : Nat)
    (st : CrawlState) : StepLe st (finishPage env owned pid st) := by
  unfold finishPage
  split
  · exact stepLe_attemptClose env pid st
  · exact stepLe_refl st

theorem stepLe_persist (snap : PageSnapshot) (st : CrawlState) :
    StepLe st (persistSnapshot snap st) :=
  ⟨extends_refl _, extends_append _ _, extends_refl _, Nat.le_refl _⟩

theorem stepLe_of_extractOnly {a b : CrawlState} (h : ExtractOnly a b) :
    StepLe a b := by
  obtain ⟨_, h2, h3, h4, _, h6, _⟩ := h
  exact ⟨h2 ▸ extends_refl _, h3 ▸ extends_refl _, h6 ▸ extends_refl _,
    Nat.le_of_eq h4.symm⟩

theorem stepLe_acquire (parentPage : Option Nat) (st : CrawlState) :
    StepLe st (acquire parentPage st) := by
  cases parentPage
  · exact stepLe_openPage st
  · exact stepLe_refl st

theorem crawlLinks_stepLe
    (recur : String → Option Nat → Option LinkType → CrawlState →
      CrawlState × Except JsError Unit)
    (env : CrawlEnv)
    (hrec : ∀ u pp h s, StepLe s (recur u pp h s).1) :
    ∀ (links : List Link) (st : CrawlState),
      StepLe st (crawlLinks recur env links st).1 := by
  intro links
  induction links with
  | nil => intro st; exact stepLe_refl st
  | cons l rest ih =>
    intro st
    have hopen := stepLe_openPage st
    rcases hr : recur l.url (some st.nextPageId) (some l.linkType) (openPage st)
      with ⟨st1, r⟩
    have hrun : StepLe (openPage st) st1 := by
      have h := hrec l.url (some st.nextPageId) (some l.linkType) (openPage st)
      rw [hr] at h
      exact h
    have hclose := stepLe_attemptClose env st.nextPageId st1
    have hpre : StepLe st (attemptClose env st.nextPageId st1) :=
      stepLe_trans hopen (stepLe_trans hrun hclose)
    simp only [crawlLinks, hr]
    cases r with
    | ok _ => exact stepLe_trans hpre (ih _)
    | error e =>
      by_cases hc : isCDPConnectionError e
      · simp only [hc, if_true]
        exact hpre
      · simp only [hc, if_false]
        exact stepLe_trans hpre (ih _)

theorem crawlVisit_stepLe
    (recur : String → Option Nat → Option LinkType → CrawlState →
      CrawlState × Except JsError Unit)
    (env : CrawlEnv) (cfg : CrawlConfig) (url : String) (depth pid : Nat)
    (owned : Bool) (hint : Option LinkType) (st2 : CrawlState)
    (hrec : ∀ u pp h s, StepLe s (recur u pp h s).1) :
    StepLe st2 (crawlVisit recur env cfg url depth pid owned hint st2).1 := by
  unfold crawlVisit
  rcases hE : extractPage env.ops cfg url depth st2.pageIndex hint st2
    with ⟨st3, r⟩
  have hex : StepLe st2 st3 := by
    have h := stepLe_of_extractOnly
      (extractPage_extractOnly env.ops cfg url depth st2.pageIndex hint st2)
    rw [hE] at h
    exact h
  cases r with
  | error e => exact stepLe_trans hex (stepLe_finishPage env owned pid st3)
  | ok snap =>
    by_cases hd : cfg.maxDepth ≤ depth
    · simp only [hd, if_true]
      exact stepLe_trans hex (stepLe_trans (stepLe_persist snap st3)
        (stepLe_finishPage env owned pid _))
    · simp only [hd, if_false]
      rcases hL : crawlLinks recur env snap.crawlData.nextLinks
        (persistSnapshot snap st3) with ⟨st5, res⟩
      have hlinks : StepLe (persistSnapshot snap st3) st5 := by
        have h := crawlLinks_stepLe recur env hrec snap.crawlData.nextLinks
          (persistSnapshot snap st3)
        rw [hL] at h
        exact h
      exact stepLe_trans hex (stepLe_trans (stepLe_persist snap st3)
        (stepLe_trans hlinks (stepLe_finishPage env owned pid st5)))

theorem crawlStep_stepLe
    (recur : String → Option Nat → Option LinkType → CrawlState →
      CrawlState × Except JsError Unit)
    (env : CrawlEnv) (cfg : CrawlConfig) (url : String) (depth : Nat)
    (parentPage : Option Nat) (hint : Option LinkType) (st : CrawlState)
    (hrec : ∀ u pp h s, StepLe s (recur u pp h s).1) :
    StepLe st (crawlStep recur env cfg url depth parentPage hint st).1 := by
  unfold crawlStep
  by_cases hv : st.visitedUrls.contains url
  · simp only [hv, if_true]
    exact stepLe_refl st
  · simp only [hv, if_false, Bool.false_eq_true]
    exact stepLe_trans (stepLe_addVisited url st)
      (stepLe_trans (stepLe_acquire parentPage (addVisited url st))
        (crawlVisit_stepLe recur env cfg url depth _ _ hint _ hrec))

theorem crawl_stepLe (env : CrawlEnv) (cfg : CrawlConfig) :
    ∀ (fuel : Nat) (url : String) (depth : Nat) (pp : Option Nat)
      (hint : Option LinkType) (st : CrawlState),
      StepLe st (crawl env cfg fuel url depth pp hint st).1 := by
  intro fuel
  induction fuel with
  | zero => intro url depth pp hint st; exact stepLe_refl st
  | succ fuel ih =>
    intro url depth pp hint st
    exact crawlStep_stepLe _ env cfg url depth pp hint st
      (fun u pp2 h s => ih u (depth + 1) pp2 h s)

/-! ### Field projections of the state primitives -/

@[simp] theorem openPage_visitedUrls (s : CrawlState) :
    (openPage s).visitedUrls = s.visitedUrls := rfl

@[simp] theorem openPage_snapshots (s : CrawlState) :
    (openPage s).snapshots = s.snapshots := rfl

@[simp] theorem openPage_pageIndex (s : CrawlState) :
    (openPage s).pageIndex = s.pageIndex := rfl

@[simp] theorem openPage_classifierCalls (s : CrawlState) :
    (openPage s).classifierCalls = s.classifierCalls := rfl

@[simp] theorem openPage_nextPageId (s : CrawlState) :
    (openPage s).nextPageId = s.nextPageId + 1 := rfl

@[simp] theorem openPage_closeAttempts (s : CrawlState) :
    (openPage s).closeAttempts = s.closeAttempts := rfl

@[simp] theorem addVisited_visitedUrls (url : String) (s : CrawlState) :
    (addVisited url s).visitedUrls = s.visitedUrls ++ [url] := rfl

@[simp] theorem addVisited_snapshots (url : String) (s : CrawlState) :
    (addVisited url s).snapshots = s.snapshots := rfl

@[simp] theorem addVisited_pageIndex (url : String) (s : CrawlState) :
    (addVisited url s).pageIndex = s.pageIndex := rfl

@[simp] theorem addVisited_classifierCalls (url : String) (s : CrawlState) :
    (addVisited url s).classifierCalls = s.classifierCalls := rfl

@[simp] theorem addVisited_nextPageId (url : String) (s : CrawlState) :
    (addVisited url s).nextPageId = s.nextPageId := rfl

@[simp] theorem addVisited_closeAttempts (url : String) (s : CrawlState) :
    (addVisited url s).closeAttempts = s.closeAttempts := rfl

@[simp] theorem persistSnapshot_visitedUrls (snap : PageSnapshot) (s : CrawlState) :
    (persistSnapshot snap s).visitedUrls = s.visitedUrls := rfl

@[simp] theorem persistSnapshot_snapshots (snap : PageSnapshot) (s : CrawlState) :
    (persistSnapshot snap s).snapshots = s.snapshots ++ [(s.pageIndex, snap)] := rfl

@[simp] theorem persistSnapshot_pageIndex (snap : PageSnapshot) (s : CrawlState) :
    (persistSnapshot snap s).pageIndex = s.pageIndex + 1 := rfl

@[simp] theorem persistSnapshot_classifierCalls (snap : PageSnapshot) (s : CrawlState) :
    (persistSnapshot snap s).classifierCalls = s.classifierCalls := rfl

@[simp] theorem persistSnapshot_nextPageId (snap : PageSnapshot) (s : CrawlState) :
    (persistSnapshot snap s).nextPageId = s.nextPageId := rfl

@[simp] theorem persistSnapshot_closeAttempts (snap : PageSnapshot) (s : CrawlState) :
    (persistSnapshot snap s).closeAttempts = s.closeAttempts := rfl

@[simp] theorem attemptClose_visitedUrls (env : CrawlEnv) (pid : Nat) (s : CrawlState) :
    (attemptClose env pid s).visitedUrls = s.visitedUrls := by
  unfold attemptClose; split <;> rfl

@[simp] theorem attemptClose_snapshots (env : CrawlEnv) (pid : Nat) (s : CrawlState) :
    (attemptClose env pid s).snapshots = s.snapshots := by
  unfold attemptClose; split <;> rfl

@[simp] theorem attemptClose_pageIndex (env : CrawlEnv) (pid : Nat) (s : CrawlState) :
    (attemptClose env pid s).pageIndex = s.pageIndex := by
  unfold attemptClose; split <;> rfl

@[simp] theorem attemptClose_classifierCalls (env : CrawlEnv) (pid : Nat) (s : CrawlState) :
    (attemptClose env pid s).classifierCalls = s.classifierCalls := by
  unfold attemptClose; split <;> rfl

@[simp] theorem attemptClose_nextPageId (env : CrawlEnv) (pid : Nat) (s : CrawlState) :
    (attemptClose env pid s).nextPageId = s.nextPageId := by
  unfold attemptClose; split <;> rfl

@[simp] theorem attemptClose_closeAttempts (env : CrawlEnv) (pid : Nat) (s : CrawlState) :
    (attemptClose env pid s).closeAttempts = s.closeAttempts ++ [pid] := by
  unfold attemptClose; split <;> rfl

@[simp] theorem finishPage_visitedUrls (env : CrawlEnv) (owned : Bool) (pid : Nat)
    (s : CrawlState) : (finishPage env owned pid s).visitedUrls = s.visitedUrls := by
  unfold finishPage; split <;> simp

@[simp] theorem finishPage_snapshots (env : CrawlEnv) (owned : Bool) (pid : Nat)
    (s : CrawlState) : (finishPage env owned pid s).snapshots = s.snapshots := by
  unfold finishPage; split <;> simp

@[simp] theorem finishPage_pageIndex (env : CrawlEnv) (owned : Bool) (pid : Nat)
    (s : CrawlState) : (finishPage env owned pid s).pageIndex = s.pageIndex := by
  unfold finishPage; split <;> simp

@[simp] theorem finishPage_classifierCalls (env : CrawlEnv) (owned : Bool) (pid : Nat)
    (s : CrawlState) : (finishPage env owned pid s).classifierCalls = s.classifierCalls := by
  unfold finishPage; split <;> simp

@[simp] theorem finishPage_nextPageId (env : CrawlEnv) (owned : Bool) (pid : Nat)
    (s : CrawlState) : (finishPage env owned pid s).nextPageId = s.nextPageId := by
  unfold finishPage; split <;> simp

theorem acquire_visitedUrls (pp : Option Nat) (s : CrawlState) :
    (acquire pp s).visitedUrls = s.visitedUrls := by
  cases pp <;> rfl

theorem acquire_snapshots (pp : Option Nat) (s : CrawlState) :
    (acquire pp s).snapshots = s.snapshots := by
  cases pp <;> rfl

theorem acquire_pageIndex (pp : Option Nat) (s : CrawlState) :
    (acquire pp s).pageIndex = s.pageIndex := by
  cases pp <;> rfl

theorem acquire_classifierCalls (pp : Option Nat) (s : CrawlState) :
    (acquire pp s).classifierCalls = s.classifierCalls := by
  cases pp <;> rfl

/-! ### Congruence of the invariants along state-preserving steps -/

theorem snapInv_congr {a b : CrawlState} (hs : b.snapshots = a.snapshots)
    (hv : b.visitedUrls = a.visitedUrls) (h : SnapInv a) : SnapInv b := by
  unfold SnapInv at h ⊢
  rw [hs, hv]
  exact h

theorem depthInv_congr {cfg : CrawlConfig} {a b : CrawlState}
    (hs : b.snapshots = a.snapshots) (h : DepthInv cfg a) : DepthInv cfg b := by
  unfold DepthInv at h ⊢
  rw [hs]
  exact h

theorem indexInv_congr {a b : CrawlState} (hs : b.snapshots = a.snapshots)
    (hp : b.pageIndex = a.pageIndex) (h : IndexInv a) : IndexInv b := by
  unfold IndexInv at h ⊢
  rw [hs, hp]
  exact h

theorem contentInv_congr {cfg : CrawlConfig} {a b : CrawlState}
    (hs : b.snapshots = a.snapshots) (h : ContentInv cfg a) : ContentInv cfg b := by
  unfold ContentInv at h ⊢
  rw [hs]
  exact h

/-! ### Generic preservation along the child-link loop -/

theorem crawlLinks_preserves (P : CrawlState → Prop)
    (recur : String → Option Nat → Option LinkType → CrawlState →
      CrawlState × Except JsError Unit)
    (env : CrawlEnv)
    (hopen : ∀ s, P s → P (openPage s))
    (hclose : ∀ pid s, P s → P (attemptClose env pid s))
    (hrec : ∀ u pp h s, P s → P (recur u pp h s).1) :
    ∀ (links : List Link) (st : CrawlState),
      P st → P (crawlLinks recur env links st).1 := by
  intro links
  induction links with
  | nil => intro st h; exact h
  | cons l rest ih =>
    intro st h
    rcases hr : recur l.url (some st.nextPageId) (some l.linkType) (openPage st)
      with ⟨st1, r⟩
    have h1 : P st1 := by
      have := hrec l.url (some st.nextPageId) (some l.linkType) (openPage st)
        (hopen st h)
      rw [hr] at this
      exact this
    have h2 : P (attemptClose env st.nextPageId st1) :=
      hclose st.nextPageId st1 h1
    simp only [crawlLinks, hr]
    cases r with
    | ok _ => exact ih _ h2
    | error e =>
      by_cases hc : isCDPConnectionError e
      · simp only [hc, if_true]
        exact h2
      · simp only [hc, if_false]
        exact ih _ h2

/-! ### At-most-once visitation (`SnapInv`) -/

theorem crawlVisit_snapInv
    (recur : String → Option Nat → Option LinkType → CrawlState →
      CrawlState × Except JsError Unit)
    (env : CrawlEnv) (cfg : CrawlConfig) (url : String) (depth pid : Nat)
    (owned : Bool) (hint : Option LinkType) (st2 : CrawlState)
    (hrec : ∀ u pp h s, SnapInv s → SnapInv (recur u pp h s).1)
    (h : SnapInv st2) (hmem : url ∈ st2.visitedUrls)
    (hfresh : url ∉ st2.snapshots.map (fun pr => pr.2.url)) :
    SnapInv (crawlVisit recur env cfg url depth pid owned hint st2).1 := by
  unfold crawlVisit
  rcases hE : extractPage env.ops cfg url depth st2.pageIndex hint st2
    with ⟨st3, r⟩
  have hxo : ExtractOnly st2 st3 := by
    have hx := extractPage_extractOnly env.ops cfg url depth st2.pageIndex hint st2
    rw [hE] at hx
    exact hx
  have h3 : SnapInv st3 := snapInv_congr hxo.2.2.1 hxo.2.1 h
  cases r with
  | error e =>
    exact snapInv_congr (finishPage_snapshots env owned pid st3)
      (finishPage_visitedUrls env owned pid st3) h3
  | ok snap =>
    have hsnap : snap.url = url := by
      have hsh := extractPage_ok_shape env.ops cfg url depth st2.pageIndex hint
        st2 snap (by rw [hE])
      exact hsh.1
    have h4 : SnapInv (persistSnapshot snap st3) := by
      constructor
      · intro pr hpr
        rw [persistSnapshot_snapshots] at hpr
        rw [persistSnapshot_visitedUrls]
        rcases List.mem_append.mp hpr with hold | hnew
        · exact h3.1 pr hold
        · rcases List.mem_singleton.mp hnew with rfl
          rw [hsnap, hxo.2.1]
          exact hmem
      · rw [persistSnapshot_snapshots, List.map_append]
        refine List.Nodup.append h3.2 ?_ ?_
        · simp
        · simp only [List.map_cons, List.map_nil]
          rw [List.disjoint_singleton]
          show snap.url ∉ _
          rw [hsnap, hxo.2.2.1]
          exact hfresh
    by_cases hd : cfg.maxDepth ≤ depth
    · simp only [hd, if_true]
      exact snapInv_congr (finishPage_snapshots env owned pid _)
        (finishPage_visitedUrls env owned pid _) h4
    · simp only [hd, if_false]
      rcases hL : crawlLinks recur env snap.crawlData.nextLinks
        (persistSnapshot snap st3) with ⟨st5, res⟩
      have h5 : SnapInv st5 := by
        have := crawlLinks_preserves SnapInv recur env
          (fun s hs => snapInv_congr (openPage_snapshots s) (openPage_visitedUrls s) hs)
          (fun pid2 s hs => snapInv_congr (attemptClose_snapshots env pid2 s)
            (attemptClose_visitedUrls env pid2 s) hs)
          hrec snap.crawlData.nextLinks (persistSnapshot snap st3) h4
        rw [hL] at this
        exact this
      exact snapInv_congr (finishPage_snapshots env owned pid st5)
        (finishPage_visitedUrls env owned pid st5) h5

theorem crawlStep_snapInv
    (recur : String → Option Nat → Option LinkType → CrawlState →
      CrawlState × Except JsError Unit)
    (env : CrawlEnv) (cfg : CrawlConfig) (url : String) (depth : Nat)
    (pp : Option Nat) (hint : Option LinkType) (st : CrawlState)
    (hrec : ∀ u pp2 h s, SnapInv s → SnapInv (recur u pp2 h s).1)
    (h : SnapInv st) :
    SnapInv (crawlStep recur env cfg url depth pp hint st).1 := by
  unfold crawlStep
  by_cases hv : st.visitedUrls.contains url
  · simp only [hv, if_true]
    exact h
  · simp only [hv, if_false, Bool.false_eq_true]
    have hnotmem : url ∉ st.visitedUrls := by
      simpa using (Bool.of_not_eq_true hv)
    refine crawlVisit_snapInv recur env cfg url depth _ _ hint _ hrec ?_ ?_ ?_
    · refine snapInv_congr (acquire_snapshots pp _) (acquire_visitedUrls pp _) ?_
      constructor
      · intro pr hpr
        rw [addVisited_snapshots] at hpr
        rw [addVisited_visitedUrls]
        exact List.mem_append_left _ (h.1 pr hpr)
      · rw [addVisited_snapshots]
        exact h.2
    · rw [acquire_visitedUrls, addVisited_visitedUrls]
      exact List.mem_append_right _ (List.mem_singleton_self url)
    · rw [acquire_snapshots, addVisited_snapshots]
      intro hcontra
      rcases List.mem_map.mp hcontra with ⟨pr, hpr, hurl⟩
      exact hnotmem (hurl ▸ h.1 pr hpr)

theorem crawl_snapInv (env : CrawlEnv) (cfg : CrawlConfig) :
    ∀ (fuel : Nat) (url : String) (depth : Nat) (pp : Option Nat)
      (hint : Option LinkType) (st : CrawlState),
      SnapInv st → SnapInv (crawl env cfg fuel url depth pp hint st).1 := by
  intro fuel
  induction fuel with
  | zero => intro _ _ _ _ st h; exact h
  | succ fuel ih =>
    intro url depth pp hint st h
    exact crawlStep_snapInv _ env cfg url depth pp hint st
      (fun u pp2 h2 s => ih u (depth + 1) pp2 h2 s) h

/-! ### Depth bound (`DepthInv`) -/

theorem crawlVisit_depthInv
    (recur : String → Option Nat → Option LinkType → CrawlState →
      CrawlState × Except JsError Unit)
    (env : CrawlEnv) (cfg : CrawlConfig) (url : String) (depth pid : Nat)
    (owned : Bool) (hint : Option LinkType) (st2 : CrawlState)
    (hdep : depth ≤ cfg.maxDepth)
    (hrec : ¬cfg.maxDepth ≤ depth →
      ∀ u pp h s, DepthInv cfg s → DepthInv cfg (recur u pp h s).1)
    (h : DepthInv cfg st2) :
    DepthInv cfg (crawlVisit recur env cfg url depth pid owned hint st2).1 := by
  unfold crawlVisit
  rcases hE : extractPage env.ops cfg url depth st2.pageIndex hint st2
    with ⟨st3, r⟩
  have hxo : ExtractOnly st2 st3 := by
    have hx := extractPage_extractOnly env.ops cfg url depth st2.pageIndex hint st2
    rw [hE] at hx
    exact hx
  have h3 : DepthInv cfg st3 := depthInv_congr hxo.2.2.1 h
  cases r with
  | error e => exact depthInv_congr (finishPage_snapshots env owned pid st3) h3
  | ok snap =>
    have hdep2 : snap.depth = depth :=
      (extractPage_ok_shape env.ops cfg url depth st2.pageIndex hint st2 snap
        (by rw [hE])).2.1
    have h4 : DepthInv cfg (persistSnapshot snap st3) := by
      intro pr hpr
      rw [persistSnapshot_snapshots] at hpr
      rcases List.mem_append.mp hpr with hold | hnew
      · exact h3 pr hold
      · rcases List.mem_singleton.mp hnew with rfl
        simpa [hdep2] using hdep
    by_cases hd : cfg.maxDepth ≤ depth
    · simp only [hd, if_true]
      exact depthInv_congr (finishPage_snapshots env owned pid _) h4
    · simp only [hd, if_false]
      rcases hL : crawlLinks recur env snap.crawlData.nextLinks
        (persistSnapshot snap st3) with ⟨st5, res⟩
      have h5 : DepthInv cfg st5 := by
        have := crawlLinks_preserves (DepthInv cfg) recur env
          (fun s hs => depthInv_congr (openPage_snapshots s) hs)
          (fun pid2 s hs => depthInv_congr (attemptClose_snapshots env pid2 s) hs)
          (hrec hd) snap.crawlData.nextLinks (persistSnapshot snap st3) h4
        rw [hL] at this
        exact this
      exact depthInv_congr (finishPage_snapshots env owned pid st5) h5

theorem crawlStep_depthInv
    (recur : String → Option Nat → Option LinkType → CrawlState →
      CrawlState × Except JsError Unit)
    (env : CrawlEnv) (cfg : CrawlConfig) (url : String) (depth : Nat)
    (pp : Option Nat) (hint : Option LinkType) (st : CrawlState)
    (hdep : depth ≤ cfg.maxDepth)
    (hrec : ¬cfg.maxDepth ≤ depth →
      ∀ u pp2 h s, DepthInv cfg s → DepthInv cfg (recur u pp2 h s).1)
    (h : DepthInv cfg st) :
    DepthInv cfg (crawlStep recur env cfg url depth pp hint st).1 := by
  unfold crawlStep
  by_cases hv : st.visitedUrls.contains url
  · simp only [hv, if_true]
    exact h
  · simp only [hv, if_false, Bool.false_eq_true]
    refine crawlVisit_depthInv recur env cfg url depth _ _ hint _ hdep hrec ?_
    exact depthInv_congr (by rw [acquire_snapshots, addVisited_snapshots]) h

theorem crawl_depthInv (env : CrawlEnv) (cfg : CrawlConfig) :
    ∀ (fuel : Nat) (url : String) (depth : Nat) (pp : Option Nat)
      (hint : Option LinkType) (st : CrawlState),
      depth ≤ cfg.maxDepth → DepthInv cfg st →
      DepthInv cfg (crawl env cfg fuel url depth pp hint st).1 := by
  intro fuel
  induction fuel with
  | zero => intro _ _ _ _ st _ h; exact h
  | succ fuel ih =>
    intro url depth pp hint st hdep h
    exact crawlStep_depthInv _ env cfg url depth pp hint st hdep
      (fun hd u pp2 h2 s hs =>
        ih u (depth + 1) pp2 h2 s (Nat.succ_le_of_lt (Nat.lt_of_not_le hd)) hs) h

/-! ### Index contiguity (`IndexInv`) -/

theorem crawlVisit_indexInv
    (recur : String → Option Nat → Option LinkType → CrawlState →
      CrawlState × Except JsError Unit)
    (env : CrawlEnv) (cfg : CrawlConfig) (url : String) (depth pid : Nat)
    (owned : Bool) (hint : Option LinkType) (st2 : CrawlState)
    (hrec : ∀ u pp h s, IndexInv s → IndexInv (recur u pp h s).1)
    (h : IndexInv st2) :
    IndexInv (crawlVisit recur env cfg url depth pid owned hint st2).1 := by
  unfold crawlVisit
  rcases hE : extractPage env.ops cfg url depth st2.pageIndex hint st2
    with ⟨st3, r⟩
  have hxo : ExtractOnly st2 st3 := by
    have hx := extractPage_extractOnly env.ops cfg url depth st2.pageIndex hint st2
    rw [hE] at hx
    exact hx
  have h3 : IndexInv st3 := indexInv_congr hxo.2.2.1 hxo.1 h
  cases r with
  | error e =>
    exact indexInv_congr (finishPage_snapshots env owned pid st3)
      (finishPage_pageIndex env owned pid st3) h3
  | ok snap =>
    have h4 : IndexInv (persistSnapshot snap st3) := by
      unfold IndexInv at h3 ⊢
      rw [persistSnapshot_snapshots, persistSnapshot_pageIndex,
        List.map_append, h3, List.range_succ]
      rfl
    by_cases hd : cfg.maxDepth ≤ depth
    · simp only [hd, if_true]
      exact indexInv_congr (finishPage_snapshots env owned pid _)
        (finishPage_pageIndex env owned pid _) h4
    · simp only [hd, if_false]
      rcases hL : crawlLinks recur env snap.crawlData.nextLinks
        (persistSnapshot snap st3) with ⟨st5, res⟩
      have h5 : IndexInv st5 := by
        have := crawlLinks_preserves IndexInv recur env
          (fun s hs => indexInv_congr (openPage_snapshots s) (openPage_pageIndex s) hs)
          (fun pid2 s hs => indexInv_congr (attemptClose_snapshots env pid2 s)
            (attemptClose_pageIndex env pid2 s) hs)
          hrec snap.crawlData.nextLinks (persistSnapshot snap st3) h4
        rw [hL] at this
        exact this
      exact indexInv_congr (finishPage_snapshots env owned pid st5)
        (finishPage_pageIndex env owned pid st5) h5

theorem crawlStep_indexInv
    (recur : String → Option Nat → Option LinkType → CrawlState →
      CrawlState × Except JsError Unit)
    (env : CrawlEnv) (cfg : CrawlConfig) (url : String) (depth : Nat)
    (pp : Option Nat) (hint : Option LinkType) (st : CrawlState)
    (hrec : ∀ u pp2 h s, IndexInv s → IndexInv (recur u pp2 h s).1)
    (h : IndexInv st) :
    IndexInv (crawlStep recur env cfg url depth pp hint st).1 := by
  unfold crawlStep
  by_cases hv : st.visitedUrls.contains url
  · simp only [hv, if_true]
    exact h
  · simp only [hv, if_false, Bool.false_eq_true]
    refine crawlVisit_indexInv recur env cfg url depth _ _ hint _ hrec ?_
    exact indexInv_congr (by rw [acquire_snapshots, addVisited_snapshots])
      (by rw [acquire_pageIndex, addVisited_pageIndex]) h

theorem crawl_indexInv (env : CrawlEnv) (cfg : CrawlConfig) :
    ∀ (fuel : Nat) (url : String) (depth : Nat) (pp : Option Nat)
      (hint : Option LinkType) (st : CrawlState),
      IndexInv st → IndexInv (crawl env cfg fuel url depth pp hint st).1 := by
  intro fuel
  induction fuel with
  | zero => intro _ _ _ _ st h; exact h
  | succ fuel ih =>
    intro url depth pp hint st h
    exact crawlStep_indexInv _ env cfg url depth pp hint st
      (fun u pp2 h2 s => ih u (depth + 1) pp2 h2 s) h

/-! ### Skip-classification contents (`ContentInv`) -/

theorem crawlVisit_contentInv
    (recur : String → Option Nat → Option LinkType → CrawlState →
      CrawlState × Except JsError Unit)
    (env : CrawlEnv) (cfg : CrawlConfig) (url : String) (depth pid : Nat)
    (owned : Bool) (hint : Option LinkType) (st2 : CrawlState)
    (hrec : ∀ u pp h s, ContentInv cfg s → ContentInv cfg (recur u pp h s).1)
    (h : ContentInv cfg st2) :
    ContentInv cfg (crawlVisit recur env cfg url depth pid owned hint st2).1 := by
  unfold crawlVisit
  rcases hE : extractPage env.ops cfg url depth st2.pageIndex hint st2
    with ⟨st3, r⟩
  have hxo : ExtractOnly st2 st3 := by
    have hx := extractPage_extractOnly env.ops cfg url depth st2.pageIndex hint st2
    rw [hE] at hx
    exact hx
  have h3 : ContentInv cfg st3 := contentInv_congr hxo.2.2.1 h
  cases r with
  | error e => exact contentInv_congr (finishPage_snapshots env owned pid st3) h3
  | ok snap =>
    have hshape := extractPage_ok_shape env.ops cfg url depth st2.pageIndex hint
      st2 snap (by rw [hE])
    have h4 : ContentInv cfg (persistSnapshot snap st3) := by
      intro pr hpr hle
      rw [persistSnapshot_snapshots] at hpr
      rcases List.mem_append.mp hpr with hold | hnew
      · exact h3 pr hold hle
      · rcases List.mem_singleton.mp hnew with rfl
        exact hshape.2.2.2 (by simpa [hshape.2.1] using hle)
    by_cases hd : cfg.maxDepth ≤ depth
    · simp only [hd, if_true]
      exact contentInv_congr (finishPage_snapshots env owned pid _) h4
    · simp only [hd, if_false]
      rcases hL : crawlLinks recur env snap.crawlData.nextLinks
        (persistSnapshot snap st3) with ⟨st5, res⟩
      have h5 : ContentInv cfg st5 := by
        have := crawlLinks_preserves (ContentInv cfg) recur env
          (fun s hs => contentInv_congr (openPage_snapshots s) hs)
          (fun pid2 s hs => contentInv_congr (attemptClose_snapshots env pid2 s) hs)
          hrec snap.crawlData.nextLinks (persistSnapshot snap st3) h4
        rw [hL] at this
        exact this
      exact contentInv_congr (finishPage_snapshots env owned pid st5) h5

theorem crawlStep_contentInv
    (recur : String → Option Nat → Option LinkType → CrawlState →
      CrawlState × Except JsError Unit)
    (env : CrawlEnv) (cfg : CrawlConfig) (url : String) (depth : Nat)
    (pp : Option Nat) (hint : Option LinkType) (st : CrawlState)
    (hrec : ∀ u pp2 h s, ContentInv cfg s → ContentInv cfg (recur u pp2 h s).1)
    (h : ContentInv cfg st) :
    ContentInv cfg (crawlStep recur env cfg url depth pp hint st).1 := by
  unfold crawlStep
  by_cases hv : st.visitedUrls.contains url
  · simp only [hv, if_true]
    exact h
  · simp only [hv, if_false, Bool.false_eq_true]
    refine crawlVisit_contentInv recur env cfg url depth _ _ hint _ hrec ?_
    exact contentInv_congr (by rw [acquire_snapshots, addVisited_snapshots]) h

theorem crawl_contentInv (env : CrawlEnv) (cfg : CrawlConfig) :
    ∀ (fuel : Nat) (url : String) (depth : Nat) (pp : Option Nat)
      (hint : Option LinkType) (st : CrawlState),
      ContentInv cfg st → ContentInv cfg (crawl env cfg fuel url depth pp hint st).1 := by
  intro fuel
  induction fuel with
  | zero => intro _ _ _ _ st h; exact h
  | succ fuel ih =>
    intro url depth pp hint st h
    exact crawlStep_contentInv _ env cfg url depth pp hint st
      (fun u pp2 h2 s => ih u (depth + 1) pp2 h2 s) h

/-! ### Behavioral characterizations of single invocations -/

theorem crawl_succ (env : CrawlEnv) (cfg : CrawlConfig) (fuel : Nat)
    (url : String) (depth : Nat) (pp : Option Nat) (hint : Option LinkType)
    (st : CrawlState) :
    crawl env cfg (fuel + 1) url depth pp hint st =
      crawlStep (childRecur env cfg fuel depth) env cfg url depth pp hint st :=
  rfl

theorem crawl_on_visited (env : CrawlEnv) (cfg : CrawlConfig) (fuel : Nat)
    (url : String) (depth : Nat) (pp : Option Nat) (hint : Option LinkType)
    (st : CrawlState) (h : st.visitedUrls.contains url = true) :
    crawl env cfg (fuel + 1) url depth pp hint st = (st, Except.ok ()) := by
  rw [crawl_succ]
  unfold crawlStep
  rw [if_pos h]

theorem finishSnapshot_eq (ops : PageOps) (url : String) (depth idx : Nat)
    (d : CrawlPageData) (st : CrawlState) :
    finishSnapshot ops url depth idx d st =
      ((capturePageArtifacts ops url idx st).1,
        Except.ok ⟨url, depth, d, ops.title url, (ops.captureText url).toOption⟩) := by
  have h1 := finishSnapshot_fst ops url depth idx d st
  have h2 := finishSnapshot_snd ops url depth idx d st
  cases hE : finishSnapshot ops url depth idx d st
  rw [hE] at h1 h2
  rw [← h1, ← h2]

theorem extractPage_classifier_stop (ops : PageOps) (cfg : CrawlConfig)
    (url : String) (depth idx : Nat) (hint : Option LinkType) (st : CrawlState)
    (hdep : cfg.maxDepth ≤ depth) :
    (extractPage ops cfg url depth idx hint st).1.classifierCalls =
      st.classifierCalls := by
  rcases extractPage_cases ops cfg url depth idx hint st with
    ⟨e, _, heq⟩ | ⟨_, _, heq⟩ | ⟨_, hd, _, _⟩
  · rw [heq]
  · rw [heq, finishSnapshot_fst, (capture_extractOnly ops url idx st).2]
  · exact absurd hdep hd

/-- A visit at `depth ≥ maxDepth` with successful navigation: returns
`ok`, persists exactly one snapshot (the synthesized `content-assumed` one,
under the current index), marks the url visited, never touches the link loop
and never calls the classifier. -/
theorem crawlVisit_maxdepth
    (recur : String → Option Nat → Option LinkType → CrawlState →
      CrawlState × Except JsError Unit)
    (env : CrawlEnv) (cfg : CrawlConfig) (url : String) (depth pid : Nat)
    (owned : Bool) (hint : Option LinkType) (st2 : CrawlState)
    (hgoto : env.ops.goto url = none) (hdep : cfg.maxDepth ≤ depth) :
    crawlVisit recur env cfg url depth pid owned hint st2 =
      (finishPage env owned pid (persistSnapshot
          ⟨url, depth, assumedContent, env.ops.title url,
            (env.ops.captureText url).toOption⟩
          (extractPage env.ops cfg url depth st2.pageIndex hint st2).1),
        Except.ok ()) := by
  unfold crawlVisit
  rcases hE : extractPage env.ops cfg url depth st2.pageIndex hint st2
    with ⟨st3, r⟩
  have hsnd : r = Except.ok ⟨url, depth, assumedContent, env.ops.title url,
      (env.ops.captureText url).toOption⟩ := by
    have h := extractPage_skip env.ops cfg url depth st2.pageIndex hint st2
      hgoto (Or.inl hdep)
    rw [hE] at h
    exact h
  subst hsnd
  simp only [hdep, if_true]

/-- One fresh invocation at `depth ≥ maxDepth` with successful navigation,
seen from the caller: result `ok`, exactly one new snapshot (synthesized,
current index), url appended to the visited set, no classifier call, page
index advanced by one. -/
theorem crawlStep_maxdepth
    (recur : String → Option Nat → Option LinkType → CrawlState →
      CrawlState × Except JsError Unit)
    (env : CrawlEnv) (cfg : CrawlConfig) (url : String) (depth : Nat)
    (pp : Option Nat) (hint : Option LinkType) (st : CrawlState)
    (hv : st.visitedUrls.contains url = false)
    (hgoto : env.ops.goto url = none) (hdep : cfg.maxDepth ≤ depth) :
    (crawlStep recur env cfg url depth pp hint st).2 = Except.ok () ∧
    (crawlStep recur env cfg url depth pp hint st).1.snapshots =
      st.snapshots ++ [(st.pageIndex,
        ⟨url, depth, assumedContent, env.ops.title url,
          (env.ops.captureText url).toOption⟩)] ∧
    (crawlStep recur env cfg url depth pp hint st).1.visitedUrls =
      st.visitedUrls ++ [url] ∧
    (crawlStep recur env cfg url depth pp hint st).1.classifierCalls =
      st.classifierCalls ∧
    (crawlStep recur env cfg url depth pp hint st).1.pageIndex =
      st.pageIndex + 1 := by
  unfold crawlStep
  rw [if_neg (by rw [hv]; exact Bool.false_ne_true)]
  rw [crawlVisit_maxdepth recur env cfg url depth _ _ hint _ hgoto hdep]
  have hxo := extractPage_extractOnly env.ops cfg url depth
    (acquire pp (addVisited url st)).pageIndex hint (acquire pp (addVisited url st))
  refine ⟨rfl, ?_, ?_, ?_, ?_⟩
  · rw [finishPage_snapshots, persistSnapshot_snapshots, hxo.2.2.1,
      acquire_snapshots, addVisited_snapshots]
    have hpi : (extractPage env.ops cfg url depth
        (acquire pp (addVisited url st)).pageIndex hint
        (acquire pp (addVisited url st))).1.pageIndex = st.pageIndex := by
      rw [hxo.1, acquire_pageIndex, addVisited_pageIndex]
    rw [hpi]
  · rw [finishPage_visitedUrls, persistSnapshot_visitedUrls, hxo.2.1,
      acquire_visitedUrls, addVisited_visitedUrls]
  · rw [finishPage_classifierCalls, persistSnapshot_classifierCalls,
      extractPage_classifier_stop env.ops cfg url depth _ hint _ hdep,
      acquire_classifierCalls, addVisited_classifierCalls]
  · rw [finishPage_pageIndex, persistSnapshot_pageIndex, hxo.1,
      acquire_pageIndex, addVisited_pageIndex]

/-- Any invocation at `depth ≥ maxDepth` (visited or not, navigation
succeeding or not): the classifier is never called, every snapshot present
afterwards is an old one or carries this url, and every visited url
afterwards is an old one or this url — in particular no child link is ever
visited. -/
theorem crawlStep_stop
    (recur : String → Option Nat → Option LinkType → CrawlState →
      CrawlState × Except JsError Unit)
    (env : CrawlEnv) (cfg : CrawlConfig) (url : String) (depth : Nat)
    (pp : Option Nat) (hint : Option LinkType) (st : CrawlState)
    (hdep : cfg.maxDepth ≤ depth) :
    (crawlStep recur env cfg url depth pp hint st).1.classifierCalls =
      st.classifierCalls ∧
    (∀ pr ∈ (crawlStep recur env cfg url depth pp hint st).1.snapshots,
      pr ∈ st.snapshots ∨ pr.2.url = url) ∧
    (∀ u ∈ (crawlStep recur env cfg url depth pp hint st).1.visitedUrls,
      u ∈ st.visitedUrls ∨ u = url) := by
  unfold crawlStep
  by_cases hcv : st.visitedUrls.contains url
  · rw [if_pos hcv]
    exact ⟨rfl, fun pr hpr => Or.inl hpr, fun u hu => Or.inl hu⟩
  · rw [if_neg hcv]
    unfold crawlVisit
    rcases hE : extractPage env.ops cfg url depth
      (acquire pp (addVisited url st)).pageIndex hint
      (acquire pp (addVisited url st)) with ⟨st3, r⟩
    have hxo : ExtractOnly (acquire pp (addVisited url st)) st3 := by
      have hx := extractPage_extractOnly env.ops cfg url depth
        (acquire pp (addVisited url st)).pageIndex hint
        (acquire pp (addVisited url st))
      rw [hE] at hx
      exact hx
    have hsnaps : st3.snapshots = st.snapshots := by
      rw [hxo.2.2.1, acquire_snapshots, addVisited_snapshots]
    have hvis : st3.visitedUrls = st.visitedUrls ++ [url] := by
      rw [hxo.2.1, acquire_visitedUrls, addVisited_visitedUrls]
    have hcls : st3.classifierCalls = st.classifierCalls := by
      have h := extractPage_classifier_stop env.ops cfg url depth
        (acquire pp (addVisited url st)).pageIndex hint
        (acquire pp (addVisited url st)) hdep
      rw [hE] at h
      rw [h, acquire_classifierCalls, addVisited_classifierCalls]
    cases r with
    | error e =>
      refine ⟨by rw [finishPage_classifierCalls]; exact hcls, ?_, ?_⟩
      · intro pr hpr
        rw [finishPage_snapshots, hsnaps] at hpr
        exact Or.inl hpr
      · intro u hu
        rw [finishPage_visitedUrls, hvis] at hu
        rcases List.mem_append.mp hu with h | h
        · exact Or.inl h
        · exact Or.inr (List.mem_singleton.mp h)
    | ok snap =>
      have hsnap : snap.url = url :=
        (extractPage_ok_shape env.ops cfg url depth _ hint _ snap (by rw [hE])).1
      simp only [hdep, if_true]
      refine ⟨by rw [finishPage_classifierCalls, persistSnapshot_classifierCalls]; exact hcls,
        ?_, ?_⟩
      · intro pr hpr
        rw [finishPage_snapshots, persistSnapshot_snapshots, hsnaps] at hpr
        rcases List.mem_append.mp hpr with h | h
        · exact Or.inl h
        · rcases List.mem_singleton.mp h with rfl
          exact Or.inr hsnap
      · intro u hu
        rw [finishPage_visitedUrls, persistSnapshot_visitedUrls, hvis] at hu
        rcases List.mem_append.mp hu with h | h
        · exact Or.inl h
        · exact Or.inr (List.mem_singleton.mp h)

/-- An invocation entered through a content-hinted link: whatever happens,
the only snapshot it can add is its own, synthesized `content-assumed` one —
the loop body is the empty list, so no child is processed. -/
theorem crawlStep_hintContent
    (recur : String → Option Nat → Option LinkType → CrawlState →
      CrawlState × Except JsError Unit)
    (env : CrawlEnv) (cfg : CrawlConfig) (url : String) (depth : Nat)
    (pp : Option Nat) (st : CrawlState) :
    ∀ pr ∈ (crawlStep recur env cfg url depth pp (some LinkType.content) st).1.snapshots,
      pr ∈ st.snapshots ∨ (pr.2.url = url ∧ pr.2.crawlData = assumedContent) := by
  unfold crawlStep
  by_cases hcv : st.visitedUrls.contains url
  · rw [if_pos hcv]
    exact fun pr hpr => Or.inl hpr
  · rw [if_neg hcv]
    unfold crawlVisit
    rcases hE : extractPage env.ops cfg url depth
      (acquire pp (addVisited url st)).pageIndex (some LinkType.content)
      (acquire pp (addVisited url st)) with ⟨st3, r⟩
    have hxo : ExtractOnly (acquire pp (addVisited url st)) st3 := by
      have hx := extractPage_extractOnly env.ops cfg url depth
        (acquire pp (addVisited url st)).pageIndex (some LinkType.content)
        (acquire pp (addVisited url st))
      rw [hE] at hx
      exact hx
    have hsnaps : st3.snapshots = st.snapshots := by
      rw [hxo.2.2.1, acquire_snapshots, addVisited_snapshots]
    cases r with
    | error e =>
      intro pr hpr
      rw [finishPage_snapshots, hsnaps] at hpr
      exact Or.inl hpr
    | ok snap =>
      have hform : snap = ⟨url, depth, assumedContent, env.ops.title url,
          (env.ops.captureText url).toOption⟩ ∧ env.ops.goto url = none := by
        rcases extractPage_cases env.ops cfg url depth
          (acquire pp (addVisited url st)).pageIndex (some LinkType.content)
          (acquire pp (addVisited url st)) with
          ⟨e, hg, heq⟩ | ⟨hg, _, heq⟩ | ⟨_, _, hh, _⟩
        · rw [heq] at hE
          simp [Prod.mk.injEq] at hE
        · rw [heq, finishSnapshot_eq, Prod.mk.injEq] at hE
          exact ⟨(Except.ok.inj hE.2).symm, hg⟩
        · exact absurd rfl hh
      rcases hform with ⟨rfl, _⟩
      by_cases hd : cfg.maxDepth ≤ depth
      · simp only [hd, if_true]
        intro pr hpr
        rw [finishPage_snapshots, persistSnapshot_snapshots, hsnaps] at hpr
        rcases List.mem_append.mp hpr with h | h
        · exact Or.inl h
        · rcases List.mem_singleton.mp h with rfl
          exact Or.inr ⟨rfl, rfl⟩
      · simp only [hd, if_false]
        intro pr hpr
        simp only [assumedContent, crawlLinks] at hpr
        rw [finishPage_snapshots, persistSnapshot_snapshots, hsnaps] at hpr
        rcases List.mem_append.mp hpr with h | h
        · exact Or.inl h
        · rcases List.mem_singleton.mp h with rfl
          exact Or.inr ⟨rfl, rfl⟩

/-- A fresh invocation records the url in the visited set immediately after
the dedup check — in particular before navigation: whatever the rest of the
visit does (including failing), the visited set afterwards starts with the
old one followed by this url. -/
theorem crawlStep_fresh_visited
    (recur : String → Option Nat → Option LinkType → CrawlState →
      CrawlState × Except JsError Unit)
    (env : CrawlEnv) (cfg : CrawlConfig) (url : String) (depth : Nat)
    (pp : Option Nat) (hint : Option LinkType) (st : CrawlState)
    (hrec : ∀ u pp2 h s, StepLe s (recur u pp2 h s).1)
    (hv : st.visitedUrls.contains url = false) :
    Extends (st.visitedUrls ++ [url])
      (crawlStep recur env cfg url depth pp hint st).1.visitedUrls := by
  unfold crawlStep
  rw [if_neg (by rw [hv]; exact Bool.false_ne_true)]
  have h := crawlVisit_stepLe recur env cfg url depth
    (acquiredId pp (addVisited url st)) pp.isNone hint
    (acquire pp (addVisited url st)) hrec
  have heq : (acquire pp (addVisited url st)).visitedUrls =
      st.visitedUrls ++ [url] := by
    rw [acquire_visitedUrls, addVisited_visitedUrls]
  rw [← heq]
  exact h.1

/-! ### Unfolding equations of the child-link loop -/

theorem crawlLinks_cons_ok
    (recur : String → Option Nat → Option LinkType → CrawlState →
      CrawlState × Except JsError Unit)
    (env : CrawlEnv) (l : Link) (rest : List Link) (st st1 : CrawlState)
    (hrun : recur l.url (some st.nextPageId) (some l.linkType) (openPage st) =
      (st1, Except.ok ())) :
    crawlLinks recur env (l :: rest) st =
      crawlLinks recur env rest (attemptClose env st.nextPageId st1) := by
  simp only [crawlLinks, hrun]

theorem crawlLinks_cons_fatal
    (recur : String → Option Nat → Option LinkType → CrawlState →
      CrawlState × Except JsError Unit)
    (env : CrawlEnv) (l : Link) (rest : List Link) (st st1 : CrawlState)
    (e : JsError)
    (hrun : recur l.url (some st.nextPageId) (some l.linkType) (openPage st) =
      (st1, Except.error e))
    (hfatal : isCDPConnectionError e = true) :
    crawlLinks recur env (l :: rest) st =
      (attemptClose env st.nextPageId st1, Except.error e) := by
  simp only [crawlLinks, hrun, hfatal, if_true]

theorem crawlLinks_cons_soft
    (recur : String → Option Nat → Option LinkType → CrawlState →
      CrawlState × Except JsError Unit)
    (env : CrawlEnv) (l : Link) (rest : List Link) (st st1 : CrawlState)
    (e : JsError)
    (hrun : recur l.url (some st.nextPageId) (some l.linkType) (openPage st) =
      (st1, Except.error e))
    (hsoft : isCDPConnectionError e = false) :
    crawlLinks recur env (l :: rest) st =
      crawlLinks recur env rest (attemptClose env st.nextPageId st1) := by
  simp only [crawlLinks, hrun, hsoft, Bool.false_eq_true, if_false]

/-! ### Ownership of close attempts -/

theorem finishPage_true (env : CrawlEnv) (pid : Nat) (s : CrawlState) :
    finishPage env true pid s = attemptClose env pid s :=
  rfl

theorem finishPage_false (env : CrawlEnv) (pid : Nat) (s : CrawlState) :
    finishPage env false pid s = s :=
  rfl

/-- The owned page is always close-attempted in the `finally`, on every path
through the visit (error, depth stop, or full loop). -/
theorem crawlVisit_owned_close
    (recur : String → Option Nat → Option LinkType → CrawlState →
      CrawlState × Except JsError Unit)
    (env : CrawlEnv) (cfg : CrawlConfig) (url : String) (depth pid : Nat)
    (hint : Option LinkType) (st2 : CrawlState) :
    pid ∈ (crawlVisit recur env cfg url depth pid true hint st2).1.closeAttempts := by
  unfold crawlVisit
  rcases hE : extractPage env.ops cfg url depth st2.pageIndex hint st2
    with ⟨st3, r⟩
  cases r with
  | error e =>
    dsimp only
    rw [finishPage_true, attemptClose_closeAttempts]
    exact List.mem_append_right _ (List.mem_singleton_self pid)
  | ok snap =>
    dsimp only
    by_cases hd : cfg.maxDepth ≤ depth
    · simp only [hd, if_true]
      rw [finishPage_true, attemptClose_closeAttempts]
      exact List.mem_append_right _ (List.mem_singleton_self pid)
    · simp only [hd, if_false]
      rcases hL : crawlLinks recur env snap.crawlData.nextLinks
        (persistSnapshot snap st3) with ⟨st5, res⟩
      rw [finishPage_true, attemptClose_closeAttempts]
      exact List.mem_append_right _ (List.mem_singleton_self pid)

theorem crawlStep_owned_close
    (recur : String → Option Nat → Option LinkType → CrawlState →
      CrawlState × Except JsError Unit)
    (env : CrawlEnv) (cfg : CrawlConfig) (url : String) (depth : Nat)
    (hint : Option LinkType) (st : CrawlState)
    (hv : st.visitedUrls.contains url = false) :
    st.nextPageId ∈ (crawlStep recur env cfg url depth none hint st).1.closeAttempts := by
  unfold crawlStep
  rw [if_neg (by rw [hv]; exact Bool.false_ne_true)]
  exact crawlVisit_owned_close recur env cfg url depth _ hint _

/-! ### New close attempts target only pages allocated by the call -/

theorem newCloses_refl_of (base s : CrawlState)
    (h : s.closeAttempts = base.closeAttempts) : NewCloses base s := by
  intro q hq
  rw [h] at hq
  exact Or.inl hq

theorem newCloses_comp {a b c : CrawlState} (h1 : NewCloses a b)
    (h2 : NewCloses b c) (hle : a.nextPageId ≤ b.nextPageId) : NewCloses a c := by
  intro q hq
  rcases h2 q hq with hin | hge
  · exact h1 q hin
  · exact Or.inr (Nat.le_trans hle hge)

theorem newCloses_attemptClose_of {base s : CrawlState} (env : CrawlEnv)
    (pid : Nat) (h : NewCloses base s) (hpid : base.nextPageId ≤ pid) :
    NewCloses base (attemptClose env pid s) := by
  intro q hq
  rw [attemptClose_closeAttempts] at hq
  rcases List.mem_append.mp hq with hin | hnew
  · exact h q hin
  · rcases List.mem_singleton.mp hnew with rfl
    exact Or.inr hpid

theorem crawlLinks_newCloses
    (recur : String → Option Nat → Option LinkType → CrawlState →
      CrawlState × Except JsError Unit)
    (env : CrawlEnv)
    (hrecM : ∀ u pp h s, StepLe s (recur u pp h s).1)
    (hrecC : ∀ u pp h s, NewCloses s (recur u pp h s).1) :
    ∀ (links : List Link) (st : CrawlState),
      NewCloses st (crawlLinks recur env links st).1 := by
  intro links
  induction links with
  | nil => intro st; exact newCloses_refl_of st st rfl
  | cons l rest ih =>
    intro st
    rcases hr : recur l.url (some st.nextPageId) (some l.linkType) (openPage st)
      with ⟨st1, r⟩
    have hC1 : NewCloses st st1 := by
      have h0 : NewCloses st (openPage st) :=
        newCloses_refl_of st (openPage st) (openPage_closeAttempts st)
      have h1 := hrecC l.url (some st.nextPageId) (some l.linkType) (openPage st)
      rw [hr] at h1
      exact newCloses_comp h0 h1 (Nat.le_succ _)
    have hle1 : st.nextPageId ≤ st1.nextPageId := by
      have h1 := hrecM l.url (some st.nextPageId) (some l.linkType) (openPage st)
      rw [hr] at h1
      exact Nat.le_trans (Nat.le_succ _) h1.2.2.2
    have hC2 : NewCloses st (attemptClose env st.nextPageId st1) :=
      newCloses_attemptClose_of env st.nextPageId hC1 (Nat.le_refl _)
    simp only [crawlLinks, hr]
    cases r with
    | ok _ =>
      refine newCloses_comp hC2 (ih _) ?_
      rw [attemptClose_nextPageId]
      exact hle1
    | error e =>
      by_cases hc : isCDPConnectionError e
      · simp only [hc, if_true]
        exact hC2
      · simp only [hc, if_false]
        refine newCloses_comp hC2 (ih _) ?_
        rw [attemptClose_nextPageId]
        exact hle1

theorem newCloses_congr {base a b : CrawlState}
    (hatt : b.closeAttempts = a.closeAttempts) (h : NewCloses base a) :
    NewCloses base b := by
  intro q hq
  rw [hatt] at hq
  exact h q hq

theorem acquire_closeAttempts (pp : Option Nat) (s : CrawlState) :
    (acquire pp s).closeAttempts = s.closeAttempts := by
  cases pp <;> rfl

theorem acquire_nextPageId_ge (pp : Option Nat) (s : CrawlState) :
    s.nextPageId ≤ (acquire pp s).nextPageId := by
  cases pp
  · exact Nat.le_succ _
  · exact Nat.le_refl _

theorem crawlVisit_newCloses
    (recur : String → Option Nat → Option LinkType → CrawlState →
      CrawlState × Except JsError Unit)
    (env : CrawlEnv) (cfg : CrawlConfig) (url : String) (depth pid : Nat)
    (owned : Bool) (hint : Option LinkType) (st2 base : CrawlState)
    (hrecM : ∀ u pp h s, StepLe s (recur u pp h s).1)
    (hrecC : ∀ u pp h s, NewCloses s (recur u pp h s).1)
    (hbase : NewCloses base st2) (hble : base.nextPageId ≤ st2.nextPageId)
    (hpid : owned = true → base.nextPageId ≤ pid) :
    NewCloses base (crawlVisit recur env cfg url depth pid owned hint st2).1 := by
  have hfin : ∀ s, NewCloses base s →
      NewCloses base (finishPage env owned pid s) := by
    intro s hs
    unfold finishPage
    cases owned
    · exact hs
    · exact newCloses_attemptClose_of env pid hs (hpid rfl)
  unfold crawlVisit
  rcases hE : extractPage env.ops cfg url depth st2.pageIndex hint st2
    with ⟨st3, r⟩
  have hxo : ExtractOnly st2 st3 := by
    have hx := extractPage_extractOnly env.ops cfg url depth st2.pageIndex hint st2
    rw [hE] at hx
    exact hx
  have h3 : NewCloses base st3 := newCloses_congr hxo.2.2.2.2.2.1 hbase
  have hble3 : base.nextPageId ≤ st3.nextPageId := by
    rw [hxo.2.2.2.1]
    exact hble
  cases r with
  | error e => exact hfin st3 h3
  | ok snap =>
    have h4 : NewCloses base (persistSnapshot snap st3) :=
      newCloses_congr (persistSnapshot_closeAttempts snap st3) h3
    by_cases hd : cfg.maxDepth ≤ depth
    · simp only [hd, if_true]
      exact hfin _ h4
    · simp only [hd, if_false]
      rcases hL : crawlLinks recur env snap.crawlData.nextLinks
        (persistSnapshot snap st3) with ⟨st5, res⟩
      have h5 : NewCloses (persistSnapshot snap st3) st5 := by
        have := crawlLinks_newCloses recur env hrecM hrecC
          snap.crawlData.nextLinks (persistSnapshot snap st3)
        rw [hL] at this
        exact this
      refine hfin st5 (newCloses_comp h4 h5 ?_)
      rw [persistSnapshot_nextPageId]
      exact hble3

theorem crawlStep_newCloses
    (recur : String → Option Nat → Option LinkType → CrawlState →
      CrawlState × Except JsError Unit)
    (env : CrawlEnv) (cfg : CrawlConfig) (url : String) (depth : Nat)
    (pp : Option Nat) (hint : Option LinkType) (st : CrawlState)
    (hrecM : ∀ u pp2 h s, StepLe s (recur u pp2 h s).1)
    (hrecC : ∀ u pp2 h s, NewCloses s (recur u pp2 h s).1) :
    NewCloses st (crawlStep recur env cfg url depth pp hint st).1 := by
  unfold crawlStep
  by_cases hcv : st.visitedUrls.contains url
  · rw [if_pos hcv]
    exact newCloses_refl_of st st rfl
  · rw [if_neg hcv]
    refine crawlVisit_newCloses recur env cfg url depth _ _ hint _ st
      hrecM hrecC ?_ ?_ ?_
    · refine newCloses_refl_of st _ ?_
      rw [acquire_closeAttempts, addVisited_closeAttempts]
    · refine Nat.le_trans ?_ (acquire_nextPageId_ge pp (addVisited url st))
      rw [addVisited_nextPageId]
    · intro howned
      cases pp with
      | some p => simp [Option.isNone] at howned
      | none =>
        show st.nextPageId ≤ (addVisited url st).nextPageId
        rw [addVisited_nextPageId]

theorem crawl_newCloses (env : CrawlEnv) (cfg : CrawlConfig) :
    ∀ (fuel : Nat) (url : String) (depth : Nat) (pp : Option Nat)
      (hint : Option LinkType) (st : CrawlState),
      NewCloses st (crawl env cfg fuel url depth pp hint st).1 := by
  intro fuel
  induction fuel with
  | zero => intro _ _ _ _ st; exact newCloses_refl_of st st rfl
  | succ fuel ih =>
    intro url depth pp hint st
    exact crawlStep_newCloses _ env cfg url depth pp hint st
      (fun u pp2 h s => crawl_stepLe env cfg fuel u (depth + 1) pp2 h s)
      (fun u pp2 h s => ih u (depth + 1) pp2 h s)

/-! ### The crawl result does not depend on close failures -/

theorem capture_log_ext (ops : PageOps) (url : String) (idx : Nat) :
    ∃ aa hh : List Nat, ∀ s : CrawlState,
      (capturePageArtifacts ops url idx s).1.a11yFiles = s.a11yFiles ++ aa ∧
      (capturePageArtifacts ops url idx s).1.htmlFiles = s.htmlFiles ++ hh := by
  cases ht : ops.captureText url with
  | error e =>
    exact ⟨[], [], fun s => by
      unfold capturePageArtifacts
      rw [ht]
      exact ⟨by simp, by simp⟩⟩
  | ok text =>
    cases ha : ops.captureA11y url with
    | error e =>
      exact ⟨[], [], fun s => by
        unfold capturePageArtifacts
        rw [ht, ha]
        exact ⟨by simp, by simp⟩⟩
    | ok u =>
      cases hm : ops.captureHtml url with
      | error e =>
        exact ⟨[idx], [], fun s => by
          unfold capturePageArtifacts
          rw [ht, ha, hm]
          exact ⟨rfl, by simp⟩⟩
      | ok html =>
        exact ⟨[idx], [idx], fun s => by
          unfold capturePageArtifacts
          rw [ht, ha, hm]
          exact ⟨rfl, rfl⟩⟩

theorem extractPage_log_ext (ops : PageOps) (cfg : CrawlConfig) (url : String)
    (depth idx : Nat) (hint : Option LinkType) :
    ∃ (cc : List (String × Nat)) (aa hh : List Nat), ∀ s : CrawlState,
      (extractPage ops cfg url depth idx hint s).1.classifierCalls =
        s.classifierCalls ++ cc ∧
      (extractPage ops cfg url depth idx hint s).1.a11yFiles =
        s.a11yFiles ++ aa ∧
      (extractPage ops cfg url depth idx hint s).1.htmlFiles =
        s.htmlFiles ++ hh := by
  obtain ⟨aa, hh, hcap⟩ := capture_log_ext ops url idx
  cases hg : ops.goto url with
  | some e =>
    exact ⟨[], [], [], fun s => by
      unfold extractPage
      rw [hg]
      exact ⟨by simp, by simp, by simp⟩⟩
  | none =>
    by_cases hd : cfg.maxDepth ≤ depth
    · refine ⟨[], aa, hh, fun s => ?_⟩
      unfold extractPage
      rw [hg, if_pos hd, finishSnapshot_fst]
      exact ⟨by rw [(capture_extractOnly ops url idx s).2]; simp,
        (hcap s).1, (hcap s).2⟩
    · by_cases hhint : hint = some LinkType.content
      · refine ⟨[], aa, hh, fun s => ?_⟩
        unfold extractPage
        rw [hg, if_neg hd, if_pos hhint, finishSnapshot_fst]
        exact ⟨by rw [(capture_extractOnly ops url idx s).2]; simp,
          (hcap s).1, (hcap s).2⟩
      · cases he : ops.extract url depth with
        | error e =>
          refine ⟨[(url, depth)], [], [], fun s => ?_⟩
          unfold extractPage
          rw [hg, if_neg hd, if_neg hhint, he]
          exact ⟨rfl, by simp [recordClassifierCall], by simp [recordClassifierCall]⟩
        | ok d =>
          refine ⟨[(url, depth)], aa, hh, fun s => ?_⟩
          unfold extractPage
          rw [hg, if_neg hd, if_neg hhint, he, finishSnapshot_fst]
          refine ⟨?_, ?_, ?_⟩
          · rw [(capture_extractOnly ops url idx (recordClassifierCall url depth s)).2]
            rfl
          · rw [(hcap (recordClassifierCall url depth s)).1]
            rfl
          · rw [(hcap (recordClassifierCall url depth s)).2]
            rfl

theorem extractPage_snd_state_free (ops : PageOps) (cfg : CrawlConfig)
    (url : String) (depth idx : Nat) (hint : Option LinkType)
    (s t : CrawlState) :
    (extractPage ops cfg url depth idx hint s).2 =
      (extractPage ops cfg url depth idx hint t).2 := by
  unfold extractPage
  cases hg : ops.goto url with
  | some e => rfl
  | none =>
    by_cases hd : cfg.maxDepth ≤ depth
    · rw [if_pos hd, if_pos hd, finishSnapshot_snd, finishSnapshot_snd]
    · by_cases hhint : hint = some LinkType.content
      · rw [if_neg hd, if_neg hd, if_pos hhint, if_pos hhint,
          finishSnapshot_snd, finishSnapshot_snd]
      · rw [if_neg hd, if_neg hd, if_neg hhint, if_neg hhint]
        cases he : ops.extract url depth with
        | error e => rfl
        | ok d => rw [finishSnapshot_snd, finishSnapshot_snd]

theorem sameCore_refl (s : CrawlState) : SameCore s s :=
  ⟨rfl, rfl, rfl, rfl, rfl, rfl, rfl, rfl, rfl⟩

theorem sameCore_openPage {s t : CrawlState} (h : SameCore s t) :
    SameCore (openPage s) (openPage t) := by
  obtain ⟨h1, h2, h3, h4, h5, h6, h7, h8, h9⟩ := h
  exact ⟨h1, h2, h3, h4, by simp [openPage, h5], by simp [openPage, h5, h6],
    h7, h8, h9⟩

theorem sameCore_addVisited (url : String) {s t : CrawlState}
    (h : SameCore s t) : SameCore (addVisited url s) (addVisited url t) := by
  obtain ⟨h1, h2, h3, h4, h5, h6, h7, h8, h9⟩ := h
  exact ⟨h1, by simp [addVisited, h2], h3, h4, h5, h6, h7, h8, h9⟩

theorem sameCore_persist (snap : PageSnapshot) {s t : CrawlState}
    (h : SameCore s t) :
    SameCore (persistSnapshot snap s) (persistSnapshot snap t) := by
  obtain ⟨h1, h2, h3, h4, h5, h6, h7, h8, h9⟩ := h
  exact ⟨by simp [persistSnapshot, h1], h2, by simp [persistSnapshot, h1, h3],
    h4, h5, h6, h7, h8, h9⟩

theorem sameCore_attemptClose (ops : PageOps) (f1 f2 : Nat → Bool) (pid : Nat)
    {s t : CrawlState} (h : SameCore s t) :
    SameCore (attemptClose ⟨ops, f1⟩ pid s) (attemptClose ⟨ops, f2⟩ pid t) := by
  obtain ⟨h1, h2, h3, h4, h5, h6, h7, h8, h9⟩ := h
  unfold attemptClose
  by_cases c1 : f1 pid <;> by_cases c2 : f2 pid <;>
    simp only [show (CrawlEnv.mk ops f1).closeOk = f1 from rfl,
      show (CrawlEnv.mk ops f2).closeOk = f2 from rfl, c1, c2,
      Bool.false_eq_true, if_true, if_false] <;>
    exact ⟨h1, h2, h3, h4, h5, h6, by simp [h7], h8, h9⟩

theorem sameCore_finishPage (ops : PageOps) (f1 f2 : Nat → Bool) (owned : Bool)
    (pid : Nat) {s t : CrawlState} (h : SameCore s t) :
    SameCore (finishPage ⟨ops, f1⟩ owned pid s) (finishPage ⟨ops, f2⟩ owned pid t) := by
  cases owned
  · exact h
  · exact sameCore_attemptClose ops f1 f2 pid h

theorem sameCore_extractPage_fst (ops : PageOps) (cfg : CrawlConfig)
    (url : String) (depth idx : Nat) (hint : Option LinkType)
    {s t : CrawlState} (h : SameCore s t) :
    SameCore (extractPage ops cfg url depth idx hint s).1
      (extractPage ops cfg url depth idx hint t).1 := by
  obtain ⟨cc, aa, hh, hlog⟩ := extractPage_log_ext ops cfg url depth idx hint
  have hs := extractPage_extractOnly ops cfg url depth idx hint s
  have ht := extractPage_extractOnly ops cfg url depth idx hint t
  obtain ⟨h1, h2, h3, h4, h5, h6, h7, h8, h9⟩ := h
  refine ⟨?_, ?_, ?_, ?_, ?_, ?_, ?_, ?_, ?_⟩
  · rw [hs.1, ht.1, h1]
  · rw [hs.2.1, ht.2.1, h2]
  · rw [hs.2.2.1, ht.2.2.1, h3]
  · rw [(hlog s).1, (hlog t).1, h4]
  · rw [hs.2.2.2.1, ht.2.2.2.1, h5]
  · rw [hs.2.2.2.2.1, ht.2.2.2.2.1, h6]
  · rw [hs.2.2.2.2.2.1, ht.2.2.2.2.2.1, h7]
  · rw [(hlog s).2.1, (hlog t).2.1, h8]
  · rw [(hlog s).2.2, (hlog t).2.2, h9]

theorem crawlLinks_sameCore (ops : PageOps) (f1 f2 : Nat → Bool)
    (recur1 recur2 : String → Option Nat → Option LinkType → CrawlState →
      CrawlState × Except JsError Unit)
    (hrec : ∀ u pp hnt s t, SameCore s t →
      SameCore (recur1 u pp hnt s).1 (recur2 u pp hnt t).1 ∧
      (recur1 u pp hnt s).2 = (recur2 u pp hnt t).2) :
    ∀ (links : List Link) (s t : CrawlState), SameCore s t →
      SameCore (crawlLinks recur1 ⟨ops, f1⟩ links s).1
        (crawlLinks recur2 ⟨ops, f2⟩ links t).1 ∧
      (crawlLinks recur1 ⟨ops, f1⟩ links s).2 =
        (crawlLinks recur2 ⟨ops, f2⟩ links t).2 := by
  intro links
  induction links with
  | nil => intro s t h; exact ⟨h, rfl⟩
  | cons l rest ih =>
    intro s t h
    have hnid : s.nextPageId = t.nextPageId := h.2.2.2.2.1
    rcases hr1 : recur1 l.url (some s.nextPageId) (some l.linkType) (openPage s)
      with ⟨s1, r1⟩
    rcases hr2 : recur2 l.url (some t.nextPageId) (some l.linkType) (openPage t)
      with ⟨t1, r2⟩
    rw [← hnid] at hr2
    have hrr := hrec l.url (some s.nextPageId) (some l.linkType)
      (openPage s) (openPage t) (sameCore_openPage h)
    rw [hr1, hr2] at hrr
    have hc1 : SameCore (attemptClose ⟨ops, f1⟩ s.nextPageId s1)
        (attemptClose ⟨ops, f2⟩ s.nextPageId t1) :=
      sameCore_attemptClose ops f1 f2 s.nextPageId hrr.1
    simp only [crawlLinks, hr1]
    rw [← hnid]
    simp only [hr2]
    rcases hrr with ⟨hcore1, hres⟩
    cases r1 with
    | ok u =>
      cases hres2 : r2 with
      | ok v => exact ih _ _ hc1
      | error e => rw [hres2] at hres; cases hres
    | error e =>
      cases hres2 : r2 with
      | ok v => rw [hres2] at hres; cases hres
      | error e2 =>
        rw [hres2] at hres
        cases hres
        by_cases hcdp : isCDPConnectionError e
        · simp only [hcdp, if_true]
          exact ⟨hc1, trivial⟩
        · simp only [hcdp, Bool.false_eq_true, if_false]
          exact ih _ _ hc1

theorem crawlVisit_sameCore (ops : PageOps) (f1 f2 : Nat → Bool)
    (recur1 recur2 : String → Option Nat → Option LinkType → CrawlState →
      CrawlState × Except JsError Unit)
    (cfg : CrawlConfig) (url : String) (depth pid : Nat) (owned : Bool)
    (hint : Option LinkType)
    (hrec : ∀ u pp hnt s t, SameCore s t →
      SameCore (recur1 u pp hnt s).1 (recur2 u pp hnt t).1 ∧
      (recur1 u pp hnt s).2 = (recur2 u pp hnt t).2)
    {s2 t2 : CrawlState} (h : SameCore s2 t2) :
    SameCore (crawlVisit recur1 ⟨ops, f1⟩ cfg url depth pid owned hint s2).1
      (crawlVisit recur2 ⟨ops, f2⟩ cfg url depth pid owned hint t2).1 ∧
    (crawlVisit recur1 ⟨ops, f1⟩ cfg url depth pid owned hint s2).2 =
      (crawlVisit recur2 ⟨ops, f2⟩ cfg url depth pid owned hint t2).2 := by
  have hidx : s2.pageIndex = t2.pageIndex := h.1
  unfold crawlVisit
  rw [← hidx]
  rcases hEs : extractPage ops cfg url depth s2.pageIndex hint s2 with ⟨s3, rs⟩
  rcases hEt : extractPage ops cfg url depth s2.pageIndex hint t2 with ⟨t3, rt⟩
  have h3 : SameCore s3 t3 := by
    have hc := sameCore_extractPage_fst ops cfg url depth s2.pageIndex hint h
    rw [hEs, hEt] at hc
    exact hc
  have hr : rs = rt := by
    have hfree := extractPage_snd_state_free ops cfg url depth s2.pageIndex hint s2 t2
    rw [hEs, hEt] at hfree
    exact hfree
  subst hr
  cases rs with
  | error e =>
    exact ⟨sameCore_finishPage ops f1 f2 owned pid h3, rfl⟩
  | ok snap =>
    by_cases hd : cfg.maxDepth ≤ depth
    · simp only [hd, if_true]
      exact ⟨sameCore_finishPage ops f1 f2 owned pid (sameCore_persist snap h3),
        trivial⟩
    · simp only [hd, if_false]
      rcases hLs : crawlLinks recur1 ⟨ops, f1⟩ snap.crawlData.nextLinks
        (persistSnapshot snap s3) with ⟨s5, ress⟩
      rcases hLt : crawlLinks recur2 ⟨ops, f2⟩ snap.crawlData.nextLinks
        (persistSnapshot snap t3) with ⟨t5, rest⟩
      have hL := crawlLinks_sameCore ops f1 f2 recur1 recur2 hrec
        snap.crawlData.nextLinks (persistSnapshot snap s3)
        (persistSnapshot snap t3) (sameCore_persist snap h3)
      rw [hLs, hLt] at hL
      exact ⟨sameCore_finishPage ops f1 f2 owned pid hL.1, hL.2⟩

theorem crawlStep_sameCore (ops : PageOps) (f1 f2 : Nat → Bool)
    (recur1 recur2 : String → Option Nat → Option LinkType → CrawlState →
      CrawlState × Except JsError Unit)
    (cfg : CrawlConfig) (url : String) (depth : Nat) (pp : Option Nat)
    (hint : Option LinkType)
    (hrec : ∀ u pp2 hnt s t, SameCore s t →
      SameCore (recur1 u pp2 hnt s).1 (recur2 u pp2 hnt t).1 ∧
      (recur1 u pp2 hnt s).2 = (recur2 u pp2 hnt t).2)
    {s t : CrawlState} (h : SameCore s t) :
    SameCore (crawlStep recur1 ⟨ops, f1⟩ cfg url depth pp hint s).1
      (crawlStep recur2 ⟨ops, f2⟩ cfg url depth pp hint t).1 ∧
    (crawlStep recur1 ⟨ops, f1⟩ cfg url depth pp hint s).2 =
      (crawlStep recur2 ⟨ops, f2⟩ cfg url depth pp hint t).2 := by
  have hvis : s.visitedUrls = t.visitedUrls := h.2.1
  unfold crawlStep
  rw [← hvis]
  by_cases hcv : s.visitedUrls.contains url
  · rw [if_pos hcv, if_pos hcv]
    exact ⟨h, rfl⟩
  · rw [if_neg hcv, if_neg hcv]
    have hadd : SameCore (addVisited url s) (addVisited url t) :=
      sameCore_addVisited url h
    have hacq : SameCore (acquire pp (addVisited url s))
        (acquire pp (addVisited url t)) := by
      cases pp
      · exact sameCore_openPage hadd
      · exact hadd
    have hid : acquiredId pp (addVisited url s) =
        acquiredId pp (addVisited url t) := by
      cases pp with
      | some p => rfl
      | none =>
        show (addVisited url s).nextPageId = (addVisited url t).nextPageId
        rw [addVisited_nextPageId, addVisited_nextPageId]
        exact h.2.2.2.2.1
    rw [← hid]
    exact crawlVisit_sameCore ops f1 f2 recur1 recur2 cfg url depth
      (acquiredId pp (addVisited url s)) pp.isNone hint hrec hacq

theorem crawl_sameCore (ops : PageOps) (f1 f2 : Nat → Bool) (cfg : CrawlConfig) :
    ∀ (fuel : Nat) (url : String) (depth : Nat) (pp : Option Nat)
      (hint : Option LinkType) (s t : CrawlState), SameCore s t →
      SameCore (crawl ⟨ops, f1⟩ cfg fuel url depth pp hint s).1
        (crawl ⟨ops, f2⟩ cfg fuel url depth pp hint t).1 ∧
      (crawl ⟨ops, f1⟩ cfg fuel url depth pp hint s).2 =
        (crawl ⟨ops, f2⟩ cfg fuel url depth pp hint t).2 := by
  intro fuel
  induction fuel with
  | zero => intro _ _ _ _ s t h; exact ⟨h, rfl⟩
  | succ fuel ih =>
    intro url depth pp hint s t h
    exact crawlStep_sameCore ops f1 f2 _ _ cfg url depth pp hint
      (fun u pp2 hnt s2 t2 h2 => ih u (depth + 1) pp2 hnt s2 t2 h2) h

/-- After a non-fatal failure the loop really does visit the next sibling:
if the next link is unvisited, its navigation succeeds and its depth exhausts
the budget, a snapshot for its url is persisted by the continued loop. -/
theorem crawlLinks_sibling_snapshot (env : CrawlEnv) (cfg : CrawlConfig)
    (k depth : Nat) (b : Link) (rest2 : List Link) (st2 : CrawlState)
    (hfresh : st2.visitedUrls.contains b.url = false)
    (hgoto : env.ops.goto b.url = none)
    (hdep2 : cfg.maxDepth ≤ depth + 1) :
    ∃ pr ∈ (crawlLinks (childRecur env cfg (k + 1) depth) env (b :: rest2) st2).1.snapshots,
      pr.2.url = b.url := by
  have hstep := crawlStep_maxdepth (childRecur env cfg k (depth + 1)) env cfg
    b.url (depth + 1) (some st2.nextPageId) (some b.linkType) (openPage st2)
    (by rw [openPage_visitedUrls]; exact hfresh) hgoto hdep2
  rcases hB : crawl env cfg (k + 1) b.url (depth + 1) (some st2.nextPageId)
    (some b.linkType) (openPage st2) with ⟨stB, rB⟩
  have hB2 : crawlStep (childRecur env cfg k (depth + 1)) env cfg b.url
      (depth + 1) (some st2.nextPageId) (some b.linkType) (openPage st2) =
      (stB, rB) := by
    rw [← crawl_succ]
    exact hB
  rw [hB2] at hstep
  obtain ⟨hok, hsnaps, hvis, hcls, hpi⟩ := hstep
  have hrB : rB = Except.ok () := hok
  subst hrB
  have hcons := crawlLinks_cons_ok (childRecur env cfg (k + 1) depth) env b
    rest2 st2 stB hB
  rw [hcons]
  have hmem : ((openPage st2).pageIndex,
      (⟨b.url, depth + 1, assumedContent, env.ops.title b.url,
        (env.ops.captureText b.url).toOption⟩ : PageSnapshot)) ∈
      (attemptClose env st2.nextPageId stB).snapshots := by
    rw [attemptClose_snapshots, hsnaps]
    exact List.mem_append_right _ (List.mem_singleton_self _)
  have hext := (crawlLinks_stepLe (childRecur env cfg (k + 1) depth) env
    (fun u pp h s => crawl_stepLe env cfg (k + 1) u (depth + 1) pp h s)
    rest2 (attemptClose env st2.nextPageId stB)).2.1
  exact ⟨_, extends_mem hext hmem, rfl⟩

/-! ### Lemmas about the resume-state builder -/

theorem readSnapshots_ok_of (fs : List FsFile)
    (h : ∀ f ∈ fs, ∃ s, f.parse = Except.ok s) :
    ∃ ss, readSnapshots fs = Except.ok ss ∧
      (∀ s, s ∈ ss ↔ ∃ f ∈ fs, f.parse = Except.ok s) := by
  induction fs with
  | nil => exact ⟨[], rfl, fun s => by simp⟩
  | cons f rest ih =>
    obtain ⟨s0, hs0⟩ := h f (List.mem_cons_self f rest)
    obtain ⟨ss, hss, hmem⟩ := ih (fun g hg => h g (List.mem_cons_of_mem f hg))
    refine ⟨s0 :: ss, ?_, ?_⟩
    · unfold readSnapshots
      rw [hs0, hss]
    · intro s
      constructor
      · intro hmem2
        rcases List.mem_cons.mp hmem2 with rfl | hin
        · exact ⟨f, List.mem_cons_self f rest, hs0⟩
        · obtain ⟨g, hg, hgp⟩ := (hmem s).mp hin
          exact ⟨g, List.mem_cons_of_mem f hg, hgp⟩
      · rintro ⟨g, hg, hgp⟩
        rcases List.mem_cons.mp hg with rfl | hin
        · rw [hs0] at hgp
          rcases Except.ok.inj hgp with rfl
          exact List.mem_cons_self _ _
        · exact List.mem_cons_of_mem _ ((hmem s).mpr ⟨g, hin, hgp⟩)

theorem readSnapshots_error_of (fs : List FsFile) (f : FsFile) (e : JsError)
    (hf : f ∈ fs) (hp : f.parse = Except.error e) :
    ∃ e2, readSnapshots fs = Except.error e2 := by
  induction fs with
  | nil => cases hf
  | cons g rest ih =>
    rcases List.mem_cons.mp hf with rfl | hin
    · refine ⟨e, ?_⟩
      unfold readSnapshots
      rw [hp]
    · cases hgp : g.parse with
      | error e2 =>
        refine ⟨e2, ?_⟩
        unfold readSnapshots
        rw [hgp]
      | ok s =>
        obtain ⟨e2, he2⟩ := ih hin
        refine ⟨e2, ?_⟩
        unfold readSnapshots
        rw [hgp, he2]

theorem collectUrls_mem (ss : List PageSnapshot) :
    ∀ (acc : List String) (u : String),
      u ∈ collectUrls ss acc ↔ u ∈ acc ∨ ∃ s ∈ ss, s.url = u := by
  induction ss with
  | nil => intro acc u; simp [collectUrls]
  | cons s rest ih =>
    intro acc u
    unfold collectUrls
    by_cases hc : acc.contains s.url
    · rw [if_pos hc, ih]
      constructor
      · rintro (hin | ⟨s2, hs2, hurl⟩)
        · exact Or.inl hin
        · exact Or.inr ⟨s2, List.mem_cons_of_mem s hs2, hurl⟩
      · rintro (hin | ⟨s2, hs2, hurl⟩)
        · exact Or.inl hin
        · rcases List.mem_cons.mp hs2 with rfl | hin2
          · subst hurl
            exact Or.inl (by simpa using hc)
          · exact Or.inr ⟨s2, hin2, hurl⟩
    · rw [if_neg hc, ih]
      constructor
      · rintro (hin | ⟨s2, hs2, hurl⟩)
        · rcases List.mem_append.mp hin with hl | hr
          · exact Or.inl hl
          · rcases List.mem_singleton.mp hr with rfl
            exact Or.inr ⟨s, List.mem_cons_self s rest, rfl⟩
        · exact Or.inr ⟨s2, List.mem_cons_of_mem s hs2, hurl⟩
      · rintro (hin | ⟨s2, hs2, hurl⟩)
        · exact Or.inl (List.mem_append_left _ hin)
        · rcases List.mem_cons.mp hs2 with rfl | hin2
          · subst hurl
            exact Or.inl (List.mem_append_right _ (List.mem_singleton_self _))
          · exact Or.inr ⟨s2, hin2, hurl⟩

/-! ### The claims -/

/-- C1: a `crawl` call on a url already in the visited set returns
immediately as a no-op, before any page resource is acquired (the state —
including the open-page and close logs — is returned untouched, with a
successful result); otherwise the url is inserted into the visited set
directly after the check, before the page is fetched (it is present whatever
the rest of the visit does, even when navigation fails); and every crawl
call preserves the at-most-once invariant: each persisted snapshot's url is
in the visited set and no url appears in two persisted snapshots. -/
theorem claim1_dedup_at_most_once (env : CrawlEnv) (cfg : CrawlConfig)
    (fuel : Nat) (url : String) (depth : Nat) (pp : Option Nat)
    (hint : Option LinkType) (st : CrawlState) :
    (st.visitedUrls.contains url = true →
      crawl env cfg (fuel + 1) url depth pp hint st = (st, Except.ok ())) ∧
    (st.visitedUrls.contains url = false →
      Extends (st.visitedUrls ++ [url])
        (crawl env cfg (fuel + 1) url depth pp hint st).1.visitedUrls) ∧
    (SnapInv st → SnapInv (crawl env cfg fuel url depth pp hint st).1) := by
  refine ⟨fun h => crawl_on_visited env cfg fuel url depth pp hint st h,
    fun h => ?_, fun h => crawl_snapInv env cfg fuel url depth pp hint st h⟩
  rw [crawl_succ]
  exact crawlStep_fresh_visited _ env cfg url depth pp hint st
    (fun u pp2 h2 s => crawl_stepLe env cfg fuel u (depth + 1) pp2 h2 s) h

/-- Witness for C1 at concrete inputs. -/
theorem claim1_witness :
    (crawl okEnv wCfg 2 "https://s/a" 0 none none
        { initState with visitedUrls := ["https://s/a"] } =
      ({ initState with visitedUrls := ["https://s/a"] }, Except.ok ())) ∧
    Extends (initState.visitedUrls ++ ["https://s/root"])
      (crawl okEnv wCfg 2 "https://s/root" 0 none none initState).1.visitedUrls ∧
    SnapInv (crawl okEnv wCfg 2 "https://s/root" 0 none none initState).1 := by
  refine ⟨(claim1_dedup_at_most_once okEnv wCfg 1 "https://s/a" 0 none none
      { initState with visitedUrls := ["https://s/a"] }).1 (by decide),
    (claim1_dedup_at_most_once okEnv wCfg 1 "https://s/root" 0 none none
      initState).2.1 (by decide),
    (claim1_dedup_at_most_once okEnv wCfg 2 "https://s/root" 0 none none
      initState).2.2 ?_⟩
  exact ⟨fun pr hpr => absurd hpr (List.not_mem_nil pr), List.nodup_nil⟩

/-- C2: with navigation succeeding, the external classifier is invoked if and
only if `depth < maxDepth` and the link-type hint is not `content` (the
invocation log gains exactly one entry in that case and none otherwise); in
either skip case the engine synthesizes `pageType = content-assumed` with an
empty `nextLinks` without calling the classifier; consequently every crawl
call preserves the invariant that persisted snapshots at depth `≥ maxDepth`
carry the synthesized classification, and a call reached via a
`content`-hinted link can only add its own snapshot, also synthesized. -/
theorem claim2_skip_classification (env : CrawlEnv) (cfg : CrawlConfig)
    (fuel : Nat) (url : String) (depth idx : Nat) (pp : Option Nat)
    (hint : Option LinkType) (st : CrawlState) :
    (env.ops.goto url = none →
      (extractPage env.ops cfg url depth idx hint st).1.classifierCalls =
        st.classifierCalls ++
          (if depth < cfg.maxDepth ∧ hint ≠ some LinkType.content
            then [(url, depth)] else [])) ∧
    (env.ops.goto url = none →
      (cfg.maxDepth ≤ depth ∨ hint = some LinkType.content) →
      (extractPage env.ops cfg url depth idx hint st).2 =
        Except.ok ⟨url, depth, assumedContent, env.ops.title url,
          (env.ops.captureText url).toOption⟩) ∧
    (ContentInv cfg st →
      ContentInv cfg (crawl env cfg fuel url depth pp hint st).1) ∧
    (hint = some LinkType.content →
      ∀ pr ∈ (crawl env cfg (fuel + 1) url depth pp hint st).1.snapshots,
        pr ∈ st.snapshots ∨ (pr.2.url = url ∧ pr.2.crawlData = assumedContent)) := by
  refine ⟨fun h => extractPage_classifier env.ops cfg url depth idx hint st h,
    fun h hskip => extractPage_skip env.ops cfg url depth idx hint st h hskip,
    fun h => crawl_contentInv env cfg fuel url depth pp hint st h,
    fun h => ?_⟩
  subst h
  rw [crawl_succ]
  exact crawlStep_hintContent _ env cfg url depth pp st

/-- Witness for C2 at concrete inputs. -/
theorem claim2_witness :
    ((extractPage okEnv.ops wCfg "https://s/root" 0 0 none initState).1.classifierCalls =
      initState.classifierCalls ++ [("https://s/root", 0)]) ∧
    ((extractPage okEnv.ops wCfg "https://s/b" 1 1 (some LinkType.content)
        initState).2 =
      Except.ok ⟨"https://s/b", 1, assumedContent, "t", some "text"⟩) ∧
    ContentInv wCfg (crawl okEnv wCfg 2 "https://s/root" 0 none none initState).1 ∧
    (∀ pr ∈ (crawl okEnv wCfg 2 "https://s/b" 0 none
        (some LinkType.content) initState).1.snapshots,
      pr ∈ initState.snapshots ∨
        (pr.2.url = "https://s/b" ∧ pr.2.crawlData = assumedContent)) := by
  refine ⟨?_, ?_,
    (claim2_skip_classification okEnv wCfg 2 "https://s/root" 0 0 none none
      initState).2.2.1 (fun pr hpr => absurd hpr (List.not_mem_nil pr)),
    (claim2_skip_classification okEnv wCfg 1 "https://s/b" 0 0 none
      (some LinkType.content) initState).2.2.2 rfl⟩
  · have h := (claim2_skip_classification okEnv wCfg 1 "https://s/root" 0 0 none
      none initState).1 rfl
    rw [h]
    rfl
  · have h := (claim2_skip_classification okEnv wCfg 1 "https://s/b" 1 1 none
      (some LinkType.content) initState).2.1 rfl (Or.inr rfl)
    rw [h]
    rfl

/-- C3: every crawl call starting at a depth within the budget preserves the
invariant that all persisted snapshots have `depth ≤ maxDepth`; a call at
`depth ≥ maxDepth` stops after persisting — it never calls the classifier,
adds no snapshot other than its own url's and visits no child link (the only
url it can add to the visited set is its own); and the resume loop, which
restarts every remaining link at depth 1 under `defaultConfig`
(`maxDepth = 1`), likewise preserves the depth bound. -/
theorem claim3_depth_bound (env : CrawlEnv) (cfg : CrawlConfig) (fuel : Nat)
    (url : String) (depth : Nat) (pp : Option Nat) (hint : Option LinkType)
    (st : CrawlState) (links : List Link) :
    (depth ≤ cfg.maxDepth → DepthInv cfg st →
      DepthInv cfg (crawl env cfg fuel url depth pp hint st).1) ∧
    (cfg.maxDepth ≤ depth →
      ((crawl env cfg (fuel + 1) url depth pp hint st).1.classifierCalls =
        st.classifierCalls ∧
      (∀ pr ∈ (crawl env cfg (fuel + 1) url depth pp hint st).1.snapshots,
        pr ∈ st.snapshots ∨ pr.2.url = url) ∧
      (∀ u ∈ (crawl env cfg (fuel + 1) url depth pp hint st).1.visitedUrls,
        u ∈ st.visitedUrls ∨ u = url))) ∧
    (DepthInv defaultConfig st →
      DepthInv defaultConfig (resumeCrawlLoop env fuel links st).1) := by
  refine ⟨fun hdep h => crawl_depthInv env cfg fuel url depth pp hint st hdep h,
    fun hdep => ?_, fun h => ?_⟩
  · rw [crawl_succ]
    exact crawlStep_stop _ env cfg url depth pp hint st hdep
  · unfold resumeCrawlLoop
    refine crawlLinks_preserves (DepthInv defaultConfig) _ env
      (fun s hs => depthInv_congr (openPage_snapshots s) hs)
      (fun pid2 s hs => depthInv_congr (attemptClose_snapshots env pid2 s) hs)
      (fun u pp2 h2 s hs =>
        crawl_depthInv env defaultConfig fuel u 1 pp2 h2 s (Nat.le_refl 1) hs)
      links st h

/-- Witness for C3 at concrete inputs. -/
theorem claim3_witness :
    DepthInv wCfg (crawl okEnv wCfg 2 "https://s/root" 0 none none initState).1 ∧
    ((crawl okEnv wCfg 1 "https://s/a" 1 none none initState).1.classifierCalls =
      initState.classifierCalls) ∧
    DepthInv defaultConfig
      (resumeCrawlLoop okEnv 1 [sampleLinkB, sampleLinkC] initState).1 := by
  refine ⟨(claim3_depth_bound okEnv wCfg 2 "https://s/root" 0 none none
      initState []).1 (by decide) (fun pr hpr => absurd hpr (List.not_mem_nil pr)),
    ((claim3_depth_bound okEnv wCfg 0 "https://s/a" 1 none none
      initState []).2.1 (by decide)).1,
    (claim3_depth_bound okEnv defaultConfig 1 "x" 0 none none initState
      [sampleLinkB, sampleLinkC]).2.2
      (fun pr hpr => absurd hpr (List.not_mem_nil pr))⟩

/-- C4: in the child-link loop, when the recursive visit of a link raises an
error, the loop first closes the child page (the `finally`), then: on a fatal
(transport) error it re-throws immediately — the loop's result is exactly
that error and the state from the failed child, so no later sibling is
touched; on a non-fatal error it continues with the remaining siblings
exactly as if the child had succeeded; and under a non-fatal error the next
sibling is genuinely visited — if it is unvisited, its navigation succeeds
and its depth exhausts the budget, its snapshot is persisted by the continued
loop. -/
theorem claim4_sibling_error_handling (env : CrawlEnv) (cfg : CrawlConfig)
    (k depth : Nat) (l : Link) (rest : List Link) (st st1 : CrawlState)
    (e : JsError)
    (hrun : crawl env cfg (k + 1) l.url (depth + 1) (some st.nextPageId)
      (some l.linkType) (openPage st) = (st1, Except.error e)) :
    (isCDPConnectionError e = true →
      crawlLinks (childRecur env cfg (k + 1) depth) env (l :: rest) st =
        (attemptClose env st.nextPageId st1, Except.error e)) ∧
    (isCDPConnectionError e = false →
      crawlLinks (childRecur env cfg (k + 1) depth) env (l :: rest) st =
        crawlLinks (childRecur env cfg (k + 1) depth) env rest
          (attemptClose env st.nextPageId st1)) ∧
    (∀ b rest2, rest = b :: rest2 → isCDPConnectionError e = false →
      (attemptClose env st.nextPageId st1).visitedUrls.contains b.url = false →
      env.ops.goto b.url = none → cfg.maxDepth ≤ depth + 1 →
      ∃ pr ∈ (crawlLinks (childRecur env cfg (k + 1) depth) env
          (l :: rest) st).1.snapshots,
        pr.2.url = b.url) := by
  refine ⟨fun hfatal => crawlLinks_cons_fatal (childRecur env cfg (k + 1) depth)
      env l rest st st1 e hrun hfatal,
    fun hsoft => crawlLinks_cons_soft (childRecur env cfg (k + 1) depth)
      env l rest st st1 e hrun hsoft,
    fun b rest2 hrest hsoft hfresh hgoto hdep2 => ?_⟩
  subst hrest
  rw [crawlLinks_cons_soft (childRecur env cfg (k + 1) depth) env l
    (b :: rest2) st st1 e hrun hsoft]
  exact crawlLinks_sibling_snapshot env cfg k depth b rest2
    (attemptClose env st.nextPageId st1) hfresh hgoto hdep2

/-- Witness for C4: a fatal navigation error on the first child aborts the
loop with that error; a recoverable one lets the next sibling's snapshot be
written. -/
theorem claim4_witness :
    (crawlLinks (childRecur errEnv wCfg 1 0) errEnv
        [⟨"https://s/fatal", "F", LinkType.entry⟩, sampleLinkC] initState).2 =
      Except.error fatalErr ∧
    ∃ pr ∈ (crawlLinks (childRecur errEnv wCfg 1 0) errEnv
        [⟨"https://s/soft", "S", LinkType.entry⟩, sampleLinkC] initState).1.snapshots,
      pr.2.url = "https://s/c" := by
  constructor
  · have h := (claim4_sibling_error_handling errEnv wCfg 0 0
      ⟨"https://s/fatal", "F", LinkType.entry⟩ [sampleLinkC] initState _ _
      rfl).1 (by decide)
    rw [h]
  · exact (claim4_sibling_error_handling errEnv wCfg 0 0
      ⟨"https://s/soft", "S", LinkType.entry⟩ [sampleLinkC] initState _ _
      rfl).2.2 sampleLinkC [] rfl (by decide) (by decide) rfl (by decide)

/-- C6: `getResumeState` returns `null` when the pages directory does not
exist or when no page-index-0 crawl file is present; otherwise (when the
persisted snapshots are readable) it returns the root snapshot's `nextLinks`
filtered down to urls outside the visited set — a sublist of the root list,
so order is preserved — the visited set collecting exactly the urls of all
persisted snapshots, and `nextPageIndex` equal to the count of persisted
snapshot files. -/
theorem claim6_resume_reconstruction (files : List FsFile) :
    getResumeState none = none ∧
    (files.filter isPage0File = [] → getResumeState (some files) = none) ∧
    (∀ p0 ps, files.filter isPage0File = p0 :: ps →
      (∀ f ∈ files, isCrawlFile f = true → ∃ s, f.parse = Except.ok s) →
      ∃ root r, p0.parse = Except.ok root ∧
        getResumeState (some files) = some r ∧
        r.nextPageIndex = (files.filter isCrawlFile).length ∧
        r.remainingLinks = root.crawlData.nextLinks.filter
          (fun l => !r.visitedUrls.contains l.url) ∧
        r.remainingLinks.Sublist root.crawlData.nextLinks ∧
        (∀ u, u ∈ r.visitedUrls ↔
          ∃ f ∈ files, isCrawlFile f = true ∧
            ∃ s, f.parse = Except.ok s ∧ s.url = u)) := by
  refine ⟨rfl, fun h => ?_, fun p0 ps hfilter hparse => ?_⟩
  · unfold getResumeState
    dsimp only
    rw [h]
  · have hp0mem : p0 ∈ files.filter isPage0File := by
      rw [hfilter]
      exact List.mem_cons_self _ _
    have hp0 : p0 ∈ files ∧ isPage0File p0 = true := List.mem_filter.mp hp0mem
    have hp0crawl : isCrawlFile p0 = true := by
      have h2 := hp0.2
      simp only [isPage0File, Bool.and_eq_true] at h2
      exact h2.2
    obtain ⟨root, hroot⟩ := hparse p0 hp0.1 hp0crawl
    obtain ⟨ss, hss, hssmem⟩ := readSnapshots_ok_of (files.filter isCrawlFile)
      (fun f hf => hparse f (List.mem_filter.mp hf).1 (List.mem_filter.mp hf).2)
    have hget : getResumeState (some files) = some
        { remainingLinks := root.crawlData.nextLinks.filter
            (fun l => !(collectUrls ss []).contains l.url)
          visitedUrls := collectUrls ss []
          nextPageIndex := (files.filter isCrawlFile).length } := by
      unfold getResumeState
      dsimp only
      rw [hfilter]
      dsimp only
      rw [hroot]
      dsimp only
      rw [hss]
    refine ⟨root, _, hroot, hget, rfl, rfl, List.filter_sublist _, fun u => ?_⟩
    show u ∈ collectUrls ss [] ↔ _
    rw [collectUrls_mem]
    constructor
    · rintro (hfalse | ⟨s, hs, hurl⟩)
      · exact absurd hfalse (List.not_mem_nil u)
      · obtain ⟨f, hf, hfp⟩ := (hssmem s).mp hs
        have hff := List.mem_filter.mp hf
        exact ⟨f, hff.1, hff.2, s, hfp, hurl⟩
    · rintro ⟨f, hf, hcf, s, hfp, hurl⟩
      exact Or.inr ⟨s, (hssmem s).mpr ⟨f, List.mem_filter.mpr ⟨hf, hcf⟩, hfp⟩, hurl⟩

/-- Witness for C6: the spec's own example shape — a root with three links,
one already visited, yields the two remaining links in order and
`nextPageIndex = 2`. -/
theorem claim6_witness :
    ∃ root r, (⟨"page-0-s_crawl.json", Except.ok wRootSnap⟩ : FsFile).parse =
        Except.ok root ∧
      getResumeState (some wFiles) = some r ∧
      r.nextPageIndex = (wFiles.filter isCrawlFile).length ∧
      r.remainingLinks = root.crawlData.nextLinks.filter
        (fun l => !r.visitedUrls.contains l.url) ∧
      r.remainingLinks.Sublist root.crawlData.nextLinks ∧
      (∀ u, u ∈ r.visitedUrls ↔
        ∃ f ∈ wFiles, isCrawlFile f = true ∧
          ∃ s, f.parse = Except.ok s ∧ s.url = u) := by
  exact (claim6_resume_reconstruction wFiles).2.2
    ⟨"page-0-s_crawl.json", Except.ok wRootSnap⟩
    [] rfl
    (by
      intro f hf hcf
      simp only [wFiles, List.mem_cons, List.not_mem_nil, or_false] at hf
      rcases hf with h | h
      · exact ⟨wRootSnap, by rw [h]⟩
      · exact ⟨wChildSnap, by rw [h]⟩)

/-- C7: the persist-then-increment discipline keeps snapshot indices exactly
`0, 1, …, pageIndex − 1` in write order across every crawl call: from a state
satisfying that invariant (in particular from the fresh-crawl start), after
any crawl the indices still form a contiguous, strictly increasing,
duplicate-free sequence starting at 0, and the number of snapshots equals the
final page index. -/
theorem claim7_index_monotonicity (env : CrawlEnv) (cfg : CrawlConfig)
    (fuel : Nat) (url : String) (depth : Nat) (pp : Option Nat)
    (hint : Option LinkType) (st : CrawlState) (h : IndexInv st) :
    IndexInv (crawl env cfg fuel url depth pp hint st).1 ∧
    ((crawl env cfg fuel url depth pp hint st).1.snapshots.map Prod.fst).Nodup ∧
    (crawl env cfg fuel url depth pp hint st).1.snapshots.length =
      (crawl env cfg fuel url depth pp hint st).1.pageIndex := by
  have h1 := crawl_indexInv env cfg fuel url depth pp hint st h
  refine ⟨h1, ?_, ?_⟩
  · unfold IndexInv at h1
    rw [h1]
    exact List.nodup_range _
  · unfold IndexInv at h1
    have h2 := congrArg List.length h1
    rw [List.length_map, List.length_range] at h2
    exact h2

/-- Witness for C7: a fresh crawl from the initial state. -/
theorem claim7_witness :
    IndexInv (crawl okEnv wCfg 2 "https://s/root" 0 none none initState).1 ∧
    ((crawl okEnv wCfg 2 "https://s/root" 0 none none
      initState).1.snapshots.map Prod.fst).Nodup ∧
    (crawl okEnv wCfg 2 "https://s/root" 0 none none initState).1.snapshots.length =
      (crawl okEnv wCfg 2 "https://s/root" 0 none none initState).1.pageIndex :=
  claim7_index_monotonicity okEnv wCfg 2 "https://s/root" 0 none none initState rfl

/-- C8: a page supplied by the caller is never closed by the callee (every
close attempt a crawl call adds targets a page the call itself allocated, so
never the caller's); when the call creates its own page on a fresh url, that
page is close-attempted in the `finally`; when the url is already visited no
page is acquired and no close is attempted; and close failures never
propagate: the crawl result — and the whole state apart from the
close-warning log — is identical under any two close-outcome assignments. -/
theorem claim8_page_lifecycle (ops : PageOps) (f1 f2 : Nat → Bool)
    (cfg : CrawlConfig) (fuel : Nat) (url : String) (depth : Nat)
    (pp : Option Nat) (hint : Option LinkType) (st : CrawlState) (p : Nat) :
    (p < st.nextPageId →
      ∀ q ∈ (crawl ⟨ops, f1⟩ cfg fuel url depth (some p) hint st).1.closeAttempts,
        q ∈ st.closeAttempts ∨ q ≠ p) ∧
    (st.visitedUrls.contains url = false →
      st.nextPageId ∈
        (crawl ⟨ops, f1⟩ cfg (fuel + 1) url depth none hint st).1.closeAttempts) ∧
    (st.visitedUrls.contains url = true →
      (crawl ⟨ops, f1⟩ cfg (fuel + 1) url depth pp hint st).1.closeAttempts =
        st.closeAttempts) ∧
    (SameCore (crawl ⟨ops, f1⟩ cfg fuel url depth pp hint st).1
        (crawl ⟨ops, f2⟩ cfg fuel url depth pp hint st).1 ∧
      (crawl ⟨ops, f1⟩ cfg fuel url depth pp hint st).2 =
        (crawl ⟨ops, f2⟩ cfg fuel url depth pp hint st).2) := by
  refine ⟨fun hp q hq => ?_, fun hv => ?_, fun hv => ?_,
    crawl_sameCore ops f1 f2 cfg fuel url depth pp hint st st (sameCore_refl st)⟩
  · rcases crawl_newCloses ⟨ops, f1⟩ cfg fuel url depth (some p) hint st q hq
      with hin | hge
    · exact Or.inl hin
    · refine Or.inr (fun heq => ?_)
      subst heq
      exact absurd hp (Nat.not_lt_of_le hge)
  · rw [crawl_succ]
    exact crawlStep_owned_close _ ⟨ops, f1⟩ cfg url depth hint st hv
  · rw [crawl_on_visited ⟨ops, f1⟩ cfg fuel url depth pp hint st hv]

/-- Witness for C8 at concrete inputs, including an environment in which
every close fails. -/
theorem claim8_witness :
    (∀ q ∈ (crawl okEnv wCfg 2 "https://s/root" 0 (some 0) none
        (openPage initState)).1.closeAttempts,
      q ∈ (openPage initState).closeAttempts ∨ q ≠ 0) ∧
    (0 ∈ (crawl okEnv wCfg 2 "https://s/root" 0 none none
      initState).1.closeAttempts) ∧
    ((crawl okEnv wCfg 2 "https://s/a" 0 none none
        { initState with visitedUrls := ["https://s/a"] }).1.closeAttempts =
      ({ initState with visitedUrls := ["https://s/a"] } : CrawlState).closeAttempts) ∧
    (crawl ⟨okOps, fun _ => true⟩ wCfg 2 "https://s/root" 0 none none initState).2 =
      (crawl ⟨okOps, fun _ => false⟩ wCfg 2 "https://s/root" 0 none none initState).2 := by
  refine ⟨(claim8_page_lifecycle okOps (fun _ => true) (fun _ => true) wCfg 2
      "https://s/root" 0 (some 0) none (openPage initState) 0).1 (by decide),
    (claim8_page_lifecycle okOps (fun _ => true) (fun _ => true) wCfg 1
      "https://s/root" 0 none none initState 0).2.1 (by decide),
    (claim8_page_lifecycle okOps (fun _ => true) (fun _ => true) wCfg 1
      "https://s/a" 0 none none
      { initState with visitedUrls := ["https://s/a"] } 0).2.2.1 (by decide),
    (claim8_page_lifecycle okOps (fun _ => true) (fun _ => false) wCfg 2
      "https://s/root" 0 none none initState 0).2.2.2.2⟩

/-- C9: `getResumeState` never surfaces an exception — in this embedding it
is a total function into `Option`, and any unreadable or malformed snapshot
file among the crawl files makes it return `none`, the same answer as a
missing directory. -/
theorem claim9_resume_never_throws (files : List FsFile) (f : FsFile)
    (e : JsError) (hf : f ∈ files) (hcf : isCrawlFile f = true)
    (hp : f.parse = Except.error e) :
    getResumeState (some files) = none := by
  unfold getResumeState
  dsimp only
  cases hfilter : files.filter isPage0File with
  | nil => rfl
  | cons p0 ps =>
    dsimp only
    cases hroot : p0.parse with
    | error e2 => rfl
    | ok root =>
      dsimp only
      obtain ⟨e2, he2⟩ := readSnapshots_error_of (files.filter isCrawlFile) f e
        (List.mem_filter.mpr ⟨hf, hcf⟩) hp
      rw [he2]

/-- Witness for C9: the sample directory with one malformed crawl file. -/
theorem claim9_witness : getResumeState (some wBadFiles) = none :=
  claim9_resume_never_throws wBadFiles
    ⟨"page-2-s_crawl.json", Except.error ⟨"Unexpected end of JSON input"⟩⟩
    ⟨"Unexpected end of JSON input"⟩ (by simp [wBadFiles, wFiles]) rfl rfl

theorem extractPage_ok_of (ops : PageOps) (cfg : CrawlConfig) (url : String)
    (depth idx : Nat) (hint : Option LinkType) (st : CrawlState)
    (hgoto : ops.goto url = none)
    (hok : cfg.maxDepth ≤ depth ∨ hint = some LinkType.content ∨
      ∃ d, ops.extract url depth = Except.ok d) :
    ∃ snap, (extractPage ops cfg url depth idx hint st).2 = Except.ok snap ∧
      snap.content = (ops.captureText url).toOption := by
  by_cases hd : cfg.maxDepth ≤ depth
  · exact ⟨_, extractPage_skip ops cfg url depth idx hint st hgoto (Or.inl hd), rfl⟩
  · by_cases hh : hint = some LinkType.content
    · exact ⟨_, extractPage_skip ops cfg url depth idx hint st hgoto (Or.inr hh), rfl⟩
    · rcases hok with h | h | ⟨d, hext⟩
      · exact absurd h hd
      · exact absurd h hh
      · exact ⟨_, extractPage_called ops cfg url depth idx hint st d hgoto hd hh hext,
          rfl⟩

theorem crawlVisit_persists
    (recur : String → Option Nat → Option LinkType → CrawlState →
      CrawlState × Except JsError Unit)
    (env : CrawlEnv) (cfg : CrawlConfig) (url : String) (depth pid : Nat)
    (owned : Bool) (hint : Option LinkType) (st2 : CrawlState)
    (hrec : ∀ u pp h s, StepLe s (recur u pp h s).1)
    (hsome : ∃ snap,
      (extractPage env.ops cfg url depth st2.pageIndex hint st2).2 =
        Except.ok snap) :
    ∃ pr ∈ (crawlVisit recur env cfg url depth pid owned hint st2).1.snapshots,
      pr.2.url = url := by
  obtain ⟨snap, hsnap⟩ := hsome
  unfold crawlVisit
  rcases hE : extractPage env.ops cfg url depth st2.pageIndex hint st2
    with ⟨st3, r⟩
  have hr : r = Except.ok snap := by
    rw [hE] at hsnap
    exact hsnap
  subst hr
  have hurl : snap.url = url :=
    (extractPage_ok_shape env.ops cfg url depth st2.pageIndex hint st2 snap
      (by rw [hE])).1
  have hmem : (st3.pageIndex, snap) ∈ (persistSnapshot snap st3).snapshots := by
    rw [persistSnapshot_snapshots]
    exact List.mem_append_right _ (List.mem_singleton_self _)
  by_cases hd : cfg.maxDepth ≤ depth
  · simp only [hd, if_true]
    refine ⟨(st3.pageIndex, snap), ?_, hurl⟩
    rw [finishPage_snapshots]
    exact hmem
  · simp only [hd, if_false]
    rcases hL : crawlLinks recur env snap.crawlData.nextLinks
      (persistSnapshot snap st3) with ⟨st5, res⟩
    have hext : Extends (persistSnapshot snap st3).snapshots st5.snapshots := by
      have h := (crawlLinks_stepLe recur env hrec snap.crawlData.nextLinks
        (persistSnapshot snap st3)).2.1
      rw [hL] at h
      exact h
    refine ⟨(st3.pageIndex, snap), ?_, hurl⟩
    rw [finishPage_snapshots]
    exact extends_mem hext hmem

/-- C10 as stated is false on `browse-crawl-v2.ts`: when the body text is
captured and a later artifact step (here the accessibility tree) fails, the
caught failure leaves the already-assigned text in place, so the persisted
snapshot's content is the captured text, not `undefined`. -/
theorem claim10_counterexample :
    a11yFailOps.captureA11y "https://s/a" =
      Except.error ⟨"getAccessibilityTree failed"⟩ ∧
    (crawl a11yFailEnv wCfg 1 "https://s/a" 1 none none initState).1.snapshots =
      [(0, ⟨"https://s/a", 1, assumedContent, "t", some "BODY"⟩)] ∧
    some "BODY" ≠ (none : Option String) := by
  refine ⟨rfl, rfl, by simp⟩

/-- C10 (amended): a failure while capturing page artifacts is caught inside
`extractPage` — whenever navigation succeeds and the classification step
succeeds (or is skipped), the visit produces a snapshot and persists it,
whatever the capture outcomes; the snapshot's content is `undefined` exactly
when the body-text capture itself failed (a failure in a later artifact step
keeps the already-captured text). -/
theorem claim10_capture_containment (env : CrawlEnv) (cfg : CrawlConfig)
    (fuel : Nat) (url : String) (depth idx : Nat) (pp : Option Nat)
    (hint : Option LinkType) (st : CrawlState)
    (hgoto : env.ops.goto url = none)
    (hok : cfg.maxDepth ≤ depth ∨ hint = some LinkType.content ∨
      ∃ d, env.ops.extract url depth = Except.ok d) :
    (∃ snap, (extractPage env.ops cfg url depth idx hint st).2 =
        Except.ok snap ∧
      snap.content = (env.ops.captureText url).toOption) ∧
    (st.visitedUrls.contains url = false →
      ∃ pr ∈ (crawl env cfg (fuel + 1) url depth pp hint st).1.snapshots,
        pr.2.url = url) := by
  refine ⟨extractPage_ok_of env.ops cfg url depth idx hint st hgoto hok,
    fun hv => ?_⟩
  rw [crawl_succ]
  unfold crawlStep
  rw [if_neg (by rw [hv]; exact Bool.false_ne_true)]
  refine crawlVisit_persists _ env cfg url depth _ _ hint _
    (fun u pp2 h2 s => crawl_stepLe env cfg fuel u (depth + 1) pp2 h2 s) ?_
  obtain ⟨snap, hsnap, _⟩ := extractPage_ok_of env.ops cfg url depth
    (acquire pp (addVisited url st)).pageIndex hint
    (acquire pp (addVisited url st)) hgoto hok
  exact ⟨snap, hsnap⟩

/-- Witness for C10: in the artifact-failure environment the visit still
persists its snapshot. -/
theorem claim10_witness :
    (∃ snap, (extractPage a11yFailEnv.ops wCfg "https://s/a" 1 0 none
        initState).2 = Except.ok snap ∧
      snap.content = (a11yFailEnv.ops.captureText "https://s/a").toOption) ∧
    ∃ pr ∈ (crawl a11yFailEnv wCfg 1 "https://s/a" 1 none none
        initState).1.snapshots,
      pr.2.url = "https://s/a" := by
  have h := claim10_capture_containment a11yFailEnv wCfg 0 "https://s/a" 1 0
    none none initState rfl (Or.inl (by decide))
  exact ⟨h.1, h.2 (by decide)⟩

end BrowseCrawl
